import Mathlib

/-!
Shallow embedding of the content-repurposing backend's
generation-and-normalization pipeline
(`backend/app/services/gemini_service.py`, `groq_service.py`,
`pollinations_service.py`, and the entry-point control flow they expose),
together with theorems settling the frozen claims about it.

Python strings are modelled as `List Char` (`Str`); Python runtime values
flowing through the normalizers are modelled by the inductive type `Py`
(JSON-shaped values, with JSON numbers carrying an exact decimal
mantissa/exponent in place of IEEE floats); fallible Python code
(expressions that can raise) is modelled with `Except Unit`.
Provider SDK calls are modelled as explicit adapter arguments, and the
single `random.randint` draw in the image service as an explicit `seed`
argument, so every definition is a pure function of its inputs.
-/

/-- Python `str` modelled as a list of characters. -/
abbrev Str := List Char

/-- ASCII whitespace, as stripped by Python's `str.strip()` and matched by
`re`'s `\s` class (the full Unicode whitespace set of CPython is not
modelled; every character appearing in the verified inputs is ASCII). -/
def isSpace (c : Char) : Bool :=
  c = ' ' || c = '\t' || c = '\n' || c = '\r' || c = '\x0b' || c = '\x0c'

/-- Python `str.lstrip()`. -/
def lstrip (s : Str) : Str := s.dropWhile isSpace

/-- Python `str.rstrip()`. -/
def rstrip (s : Str) : Str := (s.reverse.dropWhile isSpace).reverse

/-- Python `str.strip()`. -/
def strip (s : Str) : Str := rstrip (lstrip s)

/-- Python `str.split()` with no argument: split on whitespace runs,
never producing empty tokens. -/
def splitWs : Str → List Str
  | [] => []
  | c :: rest =>
    if isSpace c then splitWs rest
    else
      (c :: rest.takeWhile (fun x => !isSpace x)) ::
        splitWs (rest.dropWhile (fun x => !isSpace x))
termination_by s => s.length
decreasing_by
  · simp only [List.length_cons]; omega
  · simp only [List.length_cons]
    exact Nat.lt_succ_of_le ((List.dropWhile_suffix _).sublist.length_le)

/-- Python runtime values as they occur in this pipeline: JSON-shaped data.
A JSON number with a fractional part or exponent is kept as an exact
decimal `mantissa * 10 ^ exp` (the normalizers never do float arithmetic,
so this loses nothing observable on the verified code paths). -/
inductive Py where
  | none
  | bool (b : Bool)
  | int (n : Int)
  | float (mantissa : Int) (exp : Int)
  | str (s : Str)
  | list (xs : List Py)
  | dict (xs : List (String × Py))
deriving Repr

/-- A Python dict (association list; construction keeps keys unique). -/
abbrev PyDict := List (String × Py)

/-- Python truthiness (`bool(v)`). -/
def truthy : Py → Bool
  | Py.none => false
  | Py.bool b => b
  | Py.int n => n ≠ 0
  | Py.float m _ => m ≠ 0
  | Py.str s => !s.isEmpty
  | Py.list xs => !xs.isEmpty
  | Py.dict xs => !xs.isEmpty

/-- Python `a or b`: `a` when truthy, else `b`. -/
def pyOr (a b : Py) : Py := if truthy a then a else b

/-- `d.get(k, default)`. Keys are unique by construction, so first match
equals Python's lookup. -/
def dictGetD : PyDict → String → Py → Py
  | [], _, dflt => dflt
  | (k, v) :: rest, key, dflt => if k = key then v else dictGetD rest key dflt

/-- `d.get(k)` (default `None`). -/
def dictGet (d : PyDict) (key : String) : Py := dictGetD d key Py.none

/-- Field access on a value expected to be a dict (`None` otherwise);
used only to state theorems about emitted records. -/
def recGet (v : Py) (key : String) : Py :=
  match v with
  | Py.dict d => dictGet d key
  | _ => Py.none

/-- Decimal rendering of an integer, as Python `str(int)`. -/
def intToStr (n : Int) : Str := (toString n).data

/-- Single-quote character (written via its code point to keep source
plain). -/
def quoteChar : Char := Char.ofNat 39

/-- Escaping used inside `pyRepr` of a string: printable-ASCII
approximation of CPython's `repr` escaping (backslash, quote, newline,
carriage return, tab). Never evaluated on the verified code paths. -/
def reprEscape (c : Char) : Str :=
  if c = '\\' then ['\\', '\\']
  else if c = quoteChar then ['\\', quoteChar]
  else if c = '\n' then ['\\', 'n']
  else if c = '\r' then ['\\', 'r']
  else if c = '\t' then ['\\', 't']
  else [c]

/-- `repr` of a string value, printable-ASCII approximation (always
single quotes). -/
def strReprS (s : Str) : Str :=
  quoteChar :: (s.map reprEscape).flatten ++ [quoteChar]

/-- Python `repr`, a printable-ASCII approximation (strings always use
single quotes; floats render as `<mantissa>e<exp>`). `str()` of a
container delegates here; no verified claim exercises these cases. -/
def pyRepr : Py → Str
  | Py.none => "None".data
  | Py.bool true => "True".data
  | Py.bool false => "False".data
  | Py.int n => intToStr n
  | Py.float m e => intToStr m ++ ['e'] ++ intToStr e
  | Py.str s => strReprS s
  | Py.list xs =>
    '[' :: (((xs.attach.map fun x => pyRepr x.1).intersperse ", ".data).flatten
      ++ [']'])
  | Py.dict xs =>
    Char.ofNat 123 ::
      (((xs.attach.map fun kv =>
          strReprS kv.1.1.data ++ ": ".data ++ pyRepr kv.1.2).intersperse
        ", ".data).flatten ++ [Char.ofNat 125])
termination_by v => sizeOf v
decreasing_by
  · have h := List.sizeOf_lt_of_mem x.2
    simp only [Py.list.sizeOf_spec]; omega
  · have h := List.sizeOf_lt_of_mem kv.2
    have h2 : sizeOf (kv.1).2 < sizeOf kv.1 := by
      obtain ⟨⟨a, b⟩, hx⟩ := kv; simp
    simp only [Py.dict.sizeOf_spec]
    omega

/-- Python `str(v)`. -/
def pyStr : Py → Str
  | Py.none => "None".data
  | Py.bool true => "True".data
  | Py.bool false => "False".data
  | Py.int n => intToStr n
  | Py.float m e => pyRepr (Py.float m e)
  | Py.str s => s
  | Py.list xs => pyRepr (Py.list xs)
  | Py.dict xs => pyRepr (Py.dict xs)

/-- Parse of a decimal integer literal as accepted by Python `int(str)`:
surrounding whitespace, an optional sign, then at least one digit
(digit-group underscores are not modelled; none occur in verified
inputs). -/
def strToIntOpt (s : Str) : Option Int :=
  let t := strip s
  let core : Str → Option Int := fun digits =>
    if digits.isEmpty || !digits.all Char.isDigit then Option.none
    else some (Int.ofNat (digits.foldl (fun acc c => acc * 10 + (c.toNat - 48)) 0))
  match t with
  | '+' :: rest => core rest
  | '-' :: rest => (core rest).map Int.neg
  | _ => core t

/-- Truncation of an exact decimal `m * 10 ^ e` toward zero, as Python
`int(float)`. -/
def floatTrunc (m e : Int) : Int :=
  if 0 ≤ e then m * (10 : Int) ^ e.toNat
  else
    let d := (10 : Nat) ^ (-e).toNat
    if m < 0 then -(Int.ofNat (m.natAbs / d)) else Int.ofNat (m.natAbs / d)

/-- Python `int(v)`: succeeds on ints, bools, floats and well-formed
numeric strings; raises (`error`) otherwise. -/
def pyInt : Py → Except Unit Int
  | Py.int n => .ok n
  | Py.bool b => .ok (if b then 1 else 0)
  | Py.float m e => .ok (floatTrunc m e)
  | Py.str s =>
    match strToIntOpt s with
    | some n => .ok n
    | Option.none => .error ()
  | _ => .error ()

/-- The `.strip()` method call on an arbitrary value: only strings have
it (calling it on any other truthy value raises `AttributeError`). -/
def pyStripMethod : Py → Except Unit Str
  | Py.str s => .ok (strip s)
  | _ => .error ()

/-- `enumerate(xs, start=n)`. -/
def enumFrom (n : Nat) : List α → List (Nat × α)
  | [] => []
  | x :: xs => (n, x) :: enumFrom (n + 1) xs

/-! ### `json.loads`

A recursive-descent parser for the JSON accepted by Python's strict-mode
`json.loads`: objects, arrays, strings (with the standard escapes and
surrogate-pair `\uXXXX`), numbers (ints, and fraction/exponent numbers as
exact decimals), `true`/`false`/`null`. The CPython extensions
`NaN`/`Infinity`/`-Infinity` are not modelled (no verified input contains
them). Duplicate object keys keep the last value, as in CPython. -/

/-- JSON insignificant whitespace. -/
def jsonWs (c : Char) : Bool := c = ' ' || c = '\t' || c = '\n' || c = '\r'

/-- Skip insignificant whitespace. -/
def skipWs (s : Str) : Str := s.dropWhile jsonWs

/-- Value of a hex digit, if any. -/
def hexDigitVal (c : Char) : Option Nat :=
  if c.isDigit then some (c.toNat - 48)
  else if 'a' ≤ c && c ≤ 'f' then some (c.toNat - 87)
  else if 'A' ≤ c && c ≤ 'F' then some (c.toNat - 55)
  else Option.none

/-- Value of four hex digits, if all are hex. -/
def hex4Val (a b c d : Char) : Option Nat := do
  let va ← hexDigitVal a
  let vb ← hexDigitVal b
  let vc ← hexDigitVal c
  let vd ← hexDigitVal d
  pure (((va * 16 + vb) * 16 + vc) * 16 + vd)

/-- Single-character JSON escapes. -/
def escChar (c : Char) : Option Char :=
  if c = '"' then some '"'
  else if c = '\\' then some '\\'
  else if c = '/' then some '/'
  else if c = 'b' then some (Char.ofNat 8)
  else if c = 'f' then some (Char.ofNat 12)
  else if c = 'n' then some '\n'
  else if c = 'r' then some '\r'
  else if c = 't' then some '\t'
  else Option.none

/-- Body of a JSON string after the opening quote; returns the decoded
characters and the remaining input after the closing quote. Raw control
characters are rejected (strict mode); a lone surrogate decodes to the
replacement of `Char.ofNat` (code 0), an approximation never exercised
by the verified inputs. -/
def parseStringBody : Nat → Str → Option (Str × Str)
  | 0, _ => Option.none
  | _, [] => Option.none
  | fuel + 1, c :: rest =>
    if c = '"' then some ([], rest)
    else if c = '\\' then
      match rest with
      | [] => Option.none
      | e :: rest2 =>
        if e = 'u' then
          match rest2 with
          | a :: b :: c2 :: d :: rest3 => do
            let n ← hex4Val a b c2 d
            if 0xD800 ≤ n ∧ n < 0xDC00 then
              match rest3 with
              | '\\' :: 'u' :: a2 :: b2 :: c3 :: d2 :: rest4 => do
                let m ← hex4Val a2 b2 c3 d2
                if 0xDC00 ≤ m ∧ m < 0xE000 then
                  let cp := 0x10000 + (n - 0xD800) * 0x400 + (m - 0xDC00)
                  let (cs, r) ← parseStringBody fuel rest4
                  pure (Char.ofNat cp :: cs, r)
                else
                  let (cs, r) ← parseStringBody fuel rest3
                  pure (Char.ofNat n :: cs, r)
              | _ => do
                let (cs, r) ← parseStringBody fuel rest3
                pure (Char.ofNat n :: cs, r)
            else
              let (cs, r) ← parseStringBody fuel rest3
              pure (Char.ofNat n :: cs, r)
          | _ => Option.none
        else do
          let ec ← escChar e
          let (cs, r) ← parseStringBody fuel rest2
          pure (ec :: cs, r)
    else if c.toNat < 32 then Option.none
    else do
      let (cs, r) ← parseStringBody fuel rest
      pure (c :: cs, r)

/-- Numeric value of a digit run. -/
def digitsVal (ds : Str) : Nat :=
  ds.foldl (fun a c => a * 10 + (c.toNat - 48)) 0

/-- Optional exponent part `[eE][+-]?digits`; consumed only when fully
present (otherwise the number ends before it, as with Python's number
regex). -/
def parseExpPart (s : Str) : Option Int × Str :=
  match s with
  | c :: r =>
    if c = 'e' ∨ c = 'E' then
      let (sgn, r1) : Int × Str :=
        match r with
        | '+' :: rr => (1, rr)
        | '-' :: rr => (-1, rr)
        | _ => (1, r)
      let ed := r1.takeWhile Char.isDigit
      if ed.isEmpty then (Option.none, s)
      else (some (sgn * Int.ofNat (digitsVal ed)), r1.dropWhile Char.isDigit)
    else (Option.none, s)
  | [] => (Option.none, s)

/-- A JSON number: `-?(0|[1-9]\d*)(\.\d+)?([eE][+-]?\d+)?`. An integer
literal yields `Py.int`; a fraction or exponent yields the exact decimal
`Py.float`. -/
def parseNum (s : Str) : Option (Py × Str) :=
  let (neg, s1) : Bool × Str :=
    match s with
    | '-' :: r => (true, r)
    | _ => (false, s)
  let ip := s1.takeWhile Char.isDigit
  let s2 := s1.dropWhile Char.isDigit
  if ip.isEmpty then Option.none
  else if 1 < ip.length ∧ ip.headD 'x' = '0' then Option.none
  else
    let (fracDs, s3) : Str × Str :=
      match s2 with
      | '.' :: r =>
        let fd := r.takeWhile Char.isDigit
        if fd.isEmpty then ([], s2) else (fd, r.dropWhile Char.isDigit)
      | _ => ([], s2)
    let (expOpt, s4) := parseExpPart s3
    let sgn : Int := if neg then -1 else 1
    match expOpt, fracDs with
    | Option.none, [] => some (Py.int (sgn * Int.ofNat (digitsVal ip)), s4)
    | _, _ =>
      let mant := sgn * Int.ofNat (digitsVal (ip ++ fracDs))
      let ex := expOpt.getD 0 - Int.ofNat fracDs.length
      some (Py.float mant ex, s4)

/-- Insert a key into an object under construction; a duplicate key keeps
its position and takes the new value, as in a Python dict. -/
def objInsert (d : PyDict) (k : String) (v : Py) : PyDict :=
  if d.any (fun kv => kv.1 = k) then
    d.map (fun kv => if kv.1 = k then (k, v) else kv)
  else d ++ [(k, v)]

mutual

/-- One JSON value, leading whitespace allowed. -/
def parseVal : Nat → Str → Option (Py × Str)
  | 0, _ => Option.none
  | fuel + 1, s0 =>
    match skipWs s0 with
    | '"' :: r =>
      (parseStringBody (r.length + 1) r).map fun p => (Py.str p.1, p.2)
    | '[' :: r =>
      (match skipWs r with
       | ']' :: r2 => some (Py.list [], r2)
       | _ => parseArrayRest fuel r [])
    | '\x7b' :: r =>
      (match skipWs r with
       | '\x7d' :: r2 => some (Py.dict [], r2)
       | _ => parseObjRest fuel r [])
    | 'n' :: 'u' :: 'l' :: 'l' :: r => some (Py.none, r)
    | 't' :: 'r' :: 'u' :: 'e' :: r => some (Py.bool true, r)
    | 'f' :: 'a' :: 'l' :: 's' :: 'e' :: r => some (Py.bool false, r)
    | s => parseNum s

/-- Items of a non-empty array, from after `[` or after a `,`. -/
def parseArrayRest : Nat → Str → List Py → Option (Py × Str)
  | 0, _, _ => Option.none
  | fuel + 1, s, acc => do
    let (v, r) ← parseVal fuel s
    match skipWs r with
    | ',' :: r2 => parseArrayRest fuel r2 (acc ++ [v])
    | ']' :: r2 => some (Py.list (acc ++ [v]), r2)
    | _ => Option.none

/-- Members of a non-empty object, from after `{` or after a `,`. -/
def parseObjRest : Nat → Str → PyDict → Option (Py × Str)
  | 0, _, _ => Option.none
  | fuel + 1, s, acc =>
    match skipWs s with
    | '"' :: r => do
      let (k, r1) ← parseStringBody (r.length + 1) r
      match skipWs r1 with
      | ':' :: r2 => do
        let (v, r3) ← parseVal fuel r2
        let acc2 := objInsert acc (String.mk k) v
        match skipWs r3 with
        | ',' :: r4 => parseObjRest fuel r4 acc2
        | '\x7d' :: r4 => some (Py.dict acc2, r4)
        | _ => Option.none
      | _ => Option.none
    | _ => Option.none

end

/-- Python `json.loads`: parse one value and require only whitespace
after it; `Option.none` models `json.JSONDecodeError`. -/
def json_loads (s : Str) : Option Py :=
  match parseVal (s.length + 8) s with
  | some (v, rest) => if (skipWs rest).isEmpty then some v else Option.none
  | Option.none => Option.none

/-! ### `re.match` for the fence-stripping patterns

Both services strip markdown fences with an anchored `re.match` whose
pattern has a single lazy capture group. The matcher below implements
Python's backtracking semantics for exactly the constructs those two
patterns use: literal runs, a greedy optional literal (`(?:json)?`),
greedy character-class repetition (`\s*`, `s*`), a greedy optional
character (`\n?`, `n?`), the lazy any-character group `(.*?)` under
`re.DOTALL`, and the end anchor `$` (end of input, or just before a
final newline). Alternatives are tried in Python's order, so the
captured group is the one `re.match` reports. -/

/-- Tokens of the fence patterns (the lazy group sits between two token
lists and is handled separately). -/
inductive ReTok where
  | litStr (cs : Str)
  | optStr (cs : Str)
  | star (p : Char → Bool)
  | opt1 (p : Char → Bool)
  | endAnchor

/-- Whether a group-free token list matches at the current position
(used to decide when the lazy group can stop). Backtracking, greedy
alternatives first; fuel only bounds the backtracking recursion. -/
def matchNoCap : Nat → List ReTok → Str → Bool
  | 0, _, _ => false
  | _ + 1, [], _ => true
  | fuel + 1, ReTok.litStr cs :: rest, s =>
    cs.isPrefixOf s && matchNoCap fuel rest (s.drop cs.length)
  | fuel + 1, ReTok.optStr cs :: rest, s =>
    (cs.isPrefixOf s && matchNoCap fuel rest (s.drop cs.length))
      || matchNoCap fuel rest s
  | fuel + 1, ReTok.star p :: rest, s =>
    (match s with
     | c :: s2 =>
       if p c then
         matchNoCap fuel (ReTok.star p :: rest) s2 || matchNoCap fuel rest s
       else matchNoCap fuel rest s
     | [] => matchNoCap fuel rest [])
  | fuel + 1, ReTok.opt1 p :: rest, s =>
    (match s with
     | c :: s2 =>
       if p c then matchNoCap fuel rest s2 || matchNoCap fuel rest s
       else matchNoCap fuel rest s
     | [] => matchNoCap fuel rest [])
  | fuel + 1, ReTok.endAnchor :: rest, s =>
    (s.isEmpty || s = ['\n']) && matchNoCap fuel rest s

/-- Match the tokens before the group, trying alternatives in Python's
order, and hand every candidate remainder to the continuation until one
succeeds. -/
def matchPre : Nat → List ReTok → Str → (Str → Option Str) → Option Str
  | 0, _, _, _ => Option.none
  | _ + 1, [], s, k => k s
  | fuel + 1, ReTok.litStr cs :: rest, s, k =>
    if cs.isPrefixOf s then matchPre fuel rest (s.drop cs.length) k
    else Option.none
  | fuel + 1, ReTok.optStr cs :: rest, s, k =>
    (if cs.isPrefixOf s then matchPre fuel rest (s.drop cs.length) k
     else Option.none)
      <|> matchPre fuel rest s k
  | fuel + 1, ReTok.star p :: rest, s, k =>
    (match s with
     | c :: s2 =>
       if p c then
         matchPre fuel (ReTok.star p :: rest) s2 k <|> matchPre fuel rest s k
       else matchPre fuel rest s k
     | [] => matchPre fuel rest [] k)
  | fuel + 1, ReTok.opt1 p :: rest, s, k =>
    (match s with
     | c :: s2 =>
       if p c then matchPre fuel rest s2 k <|> matchPre fuel rest s k
       else matchPre fuel rest s k
     | [] => matchPre fuel rest [] k)
  | fuel + 1, ReTok.endAnchor :: rest, s, k =>
    if s.isEmpty || s = ['\n'] then matchPre fuel rest s k else Option.none

/-- The lazy group `(.*?)` under `DOTALL`: capture as little as possible
such that the tokens after the group still match. -/
def groupLazy : Nat → List ReTok → Str → Str → Option Str
  | 0, _, _, _ => Option.none
  | fuel + 1, post, s, acc =>
    if matchNoCap (s.length + post.length + 8) post s then some acc.reverse
    else
      match s with
      | [] => Option.none
      | c :: s2 => groupLazy fuel post s2 (c :: acc)

/-- `re.match` of `pre (.*?) post` against the whole string, returning
the captured group of the first match. -/
def reExtractGroup (pre post : List ReTok) (s : Str) : Option Str :=
  matchPre (s.length + pre.length + 8) pre s
    (fun s2 => groupLazy (s2.length + 1) post s2 [])

/-- `^```(?:json)?\s*\n?` — the tokens before the group in
`gemini_service._strip_json_fences`'s pattern. -/
def geminiFencePre : List ReTok :=
  [ReTok.litStr "```".data, ReTok.optStr "json".data,
   ReTok.star isSpace, ReTok.opt1 (fun c => c = '\n')]

/-- `\n?```\s*$` — the tokens after the group in that pattern. -/
def geminiFencePost : List ReTok :=
  [ReTok.opt1 (fun c => c = '\n'), ReTok.litStr "```".data,
   ReTok.star isSpace, ReTok.endAnchor]

/-- `gemini_service._strip_json_fences`: strip, then if the fence
pattern matches, return the stripped capture, else the text unchanged. -/
def gemini_strip_json_fences (raw : Str) : Str :=
  let text := strip raw
  match reExtractGroup geminiFencePre geminiFencePost text with
  | some g => strip g
  | Option.none => text

/-- The tokens before the group in `groq_service._strip_json_fences`'s
pattern. That pattern is written `r"^```(?:json)?\\s*\\n?(.*?)\\n?```\\s*$"`:
inside a raw string each `\\` is a regex-level escaped backslash, so the
pattern demands literal backslash characters followed by literal `s`/`n`
characters — not whitespace or a newline. -/
def groqFencePre : List ReTok :=
  [ReTok.litStr "```".data, ReTok.optStr "json".data,
   ReTok.litStr ['\\'], ReTok.star (fun c => c = 's'),
   ReTok.litStr ['\\'], ReTok.opt1 (fun c => c = 'n')]

/-- The tokens after the group in `groq_service._strip_json_fences`'s
pattern (`\\n?```\\s*$` at the regex level: literal backslashes again). -/
def groqFencePost : List ReTok :=
  [ReTok.litStr ['\\'], ReTok.opt1 (fun c => c = 'n'),
   ReTok.litStr "```".data, ReTok.litStr ['\\'],
   ReTok.star (fun c => c = 's'), ReTok.endAnchor]

/-- `groq_service._strip_json_fences`, with its doubled-backslash
pattern transcribed faithfully. -/
def groq_strip_json_fences (raw : Str) : Str :=
  let text := strip raw
  match reExtractGroup groqFencePre groqFencePost text with
  | some g => strip g
  | Option.none => text

/-! ### Per-platform normalizers -/

/-- `body = item.get("body"); if body is None: body = item.get("content", "")`
(from `gemini_service._normalize_posts`). -/
def postBodyVal (d : PyDict) : Py :=
  match dictGet d "body" with
  | Py.none => dictGetD d "content" (Py.str [])
  | v => v

/-- `body = str(body).strip() if body else ""`. -/
def postBody (d : PyDict) : Str :=
  let b := postBodyVal d
  if truthy b then strip (pyStr b) else []

/-- `title = item.get("title"); title = str(title).strip() if title is not
None else ""`. -/
def postTitle (d : PyDict) : Str :=
  match dictGet d "title" with
  | Py.none => []
  | t => strip (pyStr t)

/-- One iteration of `_normalize_posts`'s loop: skip non-dicts and
empty bodies, else emit the record. -/
def postItem (item : Py) : Option Py :=
  match item with
  | Py.dict d =>
    if (postBody d).isEmpty then Option.none
    else some (Py.dict [("title", Py.str (postTitle d)),
                        ("body", Py.str (postBody d))])
  | _ => Option.none

/-- `gemini_service._normalize_posts`. -/
def normalize_posts (parsed : PyDict) : List Py :=
  match dictGet parsed "posts" with
  | Py.list posts => posts.filterMap postItem
  | _ => []

/-- The tweet-cleaning step inside `groq_service._normalize_threads`'s
inner loop: `s = str(t or "").strip()`; skip empties; truncate past 280
characters to 277 plus an ellipsis. -/
def cleanTweet (t : Py) : Option Str :=
  let s := strip (pyStr (pyOr t (Py.str [])))
  if s.isEmpty then Option.none
  else if 280 < s.length then some (s.take 277 ++ "...".data)
  else some s

/-- One iteration of `_normalize_threads`'s loop. -/
def threadItem (item : Py) : Option Py :=
  match item with
  | Py.dict d =>
    let title_str := strip (pyStr (pyOr (dictGet d "title") (Py.str [])))
    match pyOr (dictGet d "tweets") (Py.list []) with
    | Py.list ts =>
      let cleaned := ts.filterMap cleanTweet
      if cleaned.isEmpty then Option.none
      else some (Py.dict [("title", Py.str title_str),
                          ("tweets", Py.list (cleaned.map Py.str))])
    | _ => Option.none
  | _ => Option.none

/-- `groq_service._normalize_threads`. -/
def normalize_threads (parsed : PyDict) : List Py :=
  match dictGet parsed "threads" with
  | Py.list threads => threads.filterMap threadItem
  | _ => []

/-- One iteration of `_normalize_seo_metas`'s loop (the index comes from
`enumerate(metas, start=1)`, so skipped items still consume an index). -/
def seoItem (kw : Str) (ie : Nat × Py) : Option Py :=
  match ie.2 with
  | Py.dict d =>
    let description := strip (pyStr (pyOr (dictGet d "description") (Py.str [])))
    if description.isEmpty then Option.none
    else some (Py.dict [("id", Py.int (Int.ofNat ie.1)),
                        ("description", Py.str description),
                        ("character_count", Py.int (Int.ofNat description.length)),
                        ("primary_keyword", Py.str kw)])
  | _ => Option.none

/-- `groq_service._normalize_seo_metas` (keeps at most 3 variants). -/
def normalize_seo_metas (parsed : PyDict) (primary_keyword : Str) : List Py :=
  match dictGet parsed "metas" with
  | Py.list metas =>
    ((enumFrom 1 metas).filterMap (seoItem primary_keyword)).take 3
  | _ => []

/-- Hashtag normalization in `_normalize_instagram_captions`: a list
keeps its non-empty string members stripped; a string is
whitespace-split; anything else yields no hashtags. Total — no hashtags
value can raise. -/
def normHashtags (raw : Py) : List Str :=
  match raw with
  | Py.list hs => hs.filterMap fun h =>
      match h with
      | Py.str s =>
        let tag := strip s
        if tag.isEmpty then Option.none else some tag
      | _ => Option.none
  | Py.str s => (splitWs s).filterMap fun tok =>
      let t := strip tok
      if t.isEmpty then Option.none else some t
  | _ => []

/-- `if len(hashtags) > 5: hashtags = hashtags[:5]`. -/
def capHashtags (hs : List Str) : List Str :=
  if 5 < hs.length then hs.take 5 else hs

/-- One iteration of `_normalize_instagram_captions`'s loop. The
`.strip()` calls on `(item.get("text") or "")` and
`(item.get("style") or "")` raise on a truthy non-string, and
`int(item.get("id") or idx)` raises on a truthy non-numeric id, so the
iteration is fallible. -/
def instaItem (ie : Nat × Py) : Except Unit (Option Py) :=
  match ie.2 with
  | Py.dict d => do
    let text0 ← pyStripMethod (pyOr (dictGet d "text") (Py.str []))
    if text0.isEmpty then pure Option.none
    else
      let text := if 2200 < text0.length then rstrip (text0.take 2200) else text0
      let style0 ← pyStripMethod (pyOr (dictGet d "style") (Py.str []))
      let style := if style0.isEmpty then "default".data else style0
      let hashtags := capHashtags (normHashtags (dictGet d "hashtags"))
      let idv ← pyInt (pyOr (dictGet d "id") (Py.int (Int.ofNat ie.1)))
      pure (some (Py.dict [("id", Py.int idv),
        ("style", Py.str style),
        ("text", Py.str text),
        ("hashtags", Py.list (hashtags.map Py.str)),
        ("character_count", Py.int (Int.ofNat text.length))]))
  | _ => pure Option.none

/-- The loop of `_normalize_instagram_captions`: an exception from any
iteration aborts the whole call. -/
def instaLoop : List (Nat × Py) → Except Unit (List Py)
  | [] => .ok []
  | ie :: rest => do
    let r ← instaItem ie
    let rs ← instaLoop rest
    match r with
    | some v => pure (v :: rs)
    | Option.none => pure rs

/-- `gemini_service._normalize_instagram_captions` (keeps at most 3
variants). -/
def normalize_instagram_captions (parsed : PyDict) : Except Unit (List Py) :=
  match dictGet parsed "captions" with
  | Py.list captions => do
    let normalized ← instaLoop (enumFrom 1 captions)
    pure (normalized.take 3)
  | _ => .ok []

/-! ### Prompt constants (transcribed from the service modules; the
odd characters in `TWITTER_SYSTEM_PROMPT` reproduce the source file's
bytes) -/

def LINKEDIN_SYSTEM_INSTRUCTIONS : Str :=
  ("You are a professional content repurposer. Given long-form content, produce exactly 3 LinkedIn posts.\n\nFor each post:\n- Professional tone, suitable for LinkedIn.\n- Length: 150–300 words per post.\n- Start with a strong hook.\n- Include 3–5 relevant hashtags at the end.\n- Each post should offer a distinct angle or takeaway from the source content.\n\nReturn the posts following the JSON schema provided in the tool configuration.\n\nContent to repurpose:\n").data

def INSTAGRAM_SYSTEM_INSTRUCTIONS : Str :=
  ("You are an expert social media copywriter for Instagram.\n\nGiven long-form source content, generate exactly 3 Instagram caption options as JSON.\n\nEach caption MUST:\n- Be suitable for an Instagram feed or reel.\n- Start with a strong hook in the first ~125 characters.\n- Be short and scannable: ideally under 300 characters, and never more than 2,200 characters.\n- Use at most 5 highly relevant hashtags placed at the end of the caption.\n- Match the requested audience and tone.\n\nReturn only JSON following the schema provided in the tool configuration.\n\nSource content:\n").data

def TWITTER_SYSTEM_PROMPT : Str :=
  ("\nYou are an expert Twitter (X) content writer.\n\nGiven a long-form piece of content, you will turn it into multiple high-quality Twitter threads.\n\nFor each thread:\n- 3 to 7 tweets per thread.\n- The first tweet MUST be a strong hook that clearly states who the thread is for and why they should read it.\n- Each tweet should have ONE main idea, be concise, and easy to read.\n- Use simple language; avoid jargon and filler.\n- You may use line breaks inside a tweet for bullet-style formatting.\n- The last tweet in each thread MUST contain a clear call-to-action (reply, share, follow, or reflect).\n- Hashtags: at most 2â€“3, and only in the first OR last tweet (not every tweet).\n- Do NOT use clickbait or fake metrics.\n").data

def TWITTER_OUTPUT_INSTRUCTIONS : Str :=
  ("\nReturn ONLY valid JSON in this exact schema:\n\n\x7b\n  \"threads\": [\n    \x7b\n      \"title\": \"Short internal title for the thread (optional)\",\n      \"tweets\": [\n        \"First tweet text (max 280 characters)\",\n        \"Second tweet text (max 280 characters)\",\n        \"Third tweet text (max 280 characters)\"\n      ]\n    \x7d\n  ]\n\x7d\n\nConstraints:\n- Generate exactly 5 threads.\n- Each thread must have between 3 and 7 tweets.\n- Each tweet MUST be <= 280 characters.\n- No markdown, no backticks, no explanations.\n- Only return JSON.\n").data

def SEO_SYSTEM_PROMPT : Str :=
  ("\nYou are an SEO expert writing meta descriptions for search engine result pages (SERPs).\n\nGiven a long-form piece of content, you will generate multiple high-quality meta\ndescriptions that would appear under a page title in Google search results.\n\nEach meta description must:\n- Clearly explain what the page is about.\n- Include the primary keyword naturally.\n- Use active voice and be benefit-driven.\n- Optionally end with a soft call-to-action (e.g., \"Learn more\", \"Read the full guide\").\n").data

def SEO_OUTPUT_INSTRUCTIONS : Str :=
  ("\nReturn ONLY valid JSON in this exact schema:\n\n\x7b\n  \"metas\": [\n    \x7b\n      \"description\": \"Meta description text\",\n      \"primary_keyword\": \"the main keyword this meta targets\"\n    \x7d\n  ]\n\x7d\n\nConstraints:\n- Generate exactly 3 meta descriptions.\n- Each description should be between 120 and 158 characters.\n- Each description MUST include the primary keyword at least once.\n- No markdown, no backticks, no explanations.\n- Only return JSON.\n").data

/-! ### Pipeline entry points

The upstream SDK call is modelled as an explicit `adapter` argument; a
raised transport/provider exception is its `error` case. A Gemini
response carries an optional structured payload (`response.parsed`,
already a dict — the SDK's `model_dump`/`dict` conversion is collapsed)
and a `text` attribute. A Groq completion is reduced to the list of its
choices' `message.content` values (empty list covering a falsy
completion or empty `choices`). -/

structure GeminiResponse where
  parsed : Option PyDict
  text : Py

/-- The shared two-stage parse: `json.loads`, then on failure strip
fences and retry; `isinstance(parsed_dict, dict)` guards the result. -/
def twoStageParse (stripFences : Str → Str) (text : Str) : Option Py :=
  match json_loads text with
  | some v => some v
  | Option.none => json_loads (stripFences text)

/-- The tail every generation function duplicates verbatim after its
provider call: an empty or whitespace-only response text yields `[]`;
otherwise the trimmed text goes through the two-stage parse, a non-dict
result yields `[]`, and a dict goes to the platform's normalizer. -/
def textToVariants (stripFences : Str → Str) (raw : Py)
    (next : PyDict → Except Unit (List Py)) : Except Unit (List Py) :=
  if !truthy raw || (strip (pyStr raw)).isEmpty then .ok []
  else
    match twoStageParse stripFences (strip (pyStr raw)) with
    | some (Py.dict d) => next d
    | _ => .ok []

/-- `gemini_service.generate_linkedin_posts_from_text`. -/
def generate_linkedin_posts_from_text
    (adapter : Str → Except Unit GeminiResponse) (content_text : Str) :
    Except Unit (List Py) :=
  if content_text.isEmpty || (strip content_text).isEmpty then .ok []
  else
    let prompt := LINKEDIN_SYSTEM_INSTRUCTIONS ++ strip content_text
    match adapter prompt with
    | .error e => .error e
    | .ok response =>
      match response.parsed with
      | some parsed_dict => .ok (normalize_posts parsed_dict)
      | Option.none =>
        textToVariants gemini_strip_json_fences response.text
          (fun d => .ok (normalize_posts d))

/-- `gemini_service._build_instagram_prompt`. -/
def build_instagram_prompt
    (content_text audience tone : Str) (goal title : Option Str) : Str :=
  let parts : List Str :=
    [INSTAGRAM_SYSTEM_INSTRUCTIONS]
    ++ (match title with
        | some t => if !t.isEmpty then ["Title: ".data ++ strip t ++ "\n".data] else []
        | Option.none => [])
    ++ ["Target audience: ".data ++ strip audience ++ "\n".data,
        "Tone: ".data ++ strip tone ++ "\n".data]
    ++ (match goal with
        | some g => if !g.isEmpty then ["Goal: ".data ++ strip g ++ "\n".data] else []
        | Option.none => [])
    ++ ["\n---\n\n".data, strip content_text]
  parts.flatten

/-- `gemini_service._parse_instagram_response`. -/
def parse_instagram_response (response : GeminiResponse) :
    Except Unit (List Py) :=
  match response.parsed with
  | some parsed_dict => normalize_instagram_captions parsed_dict
  | Option.none =>
    textToVariants gemini_strip_json_fences response.text
      (fun d => normalize_instagram_captions d)

/-- `gemini_service.generate_instagram_captions_from_text`. -/
def generate_instagram_captions_from_text
    (adapter : Str → Except Unit GeminiResponse) (content_text : Str)
    (audience tone : Str) (goal title : Option Str) :
    Except Unit (List Py) :=
  if content_text.isEmpty || (strip content_text).isEmpty then .ok []
  else
    match adapter (build_instagram_prompt content_text audience tone goal title) with
    | .error e => .error e
    | .ok response => parse_instagram_response response

/-- `groq_service.generate_twitter_threads_from_text`. -/
def generate_twitter_threads_from_text
    (adapter : Str → Except Unit (List Py)) (content_text : Str) :
    Except Unit (List Py) :=
  if content_text.isEmpty || (strip content_text).isEmpty then .ok []
  else
    let prompt := TWITTER_SYSTEM_PROMPT ++ "\n\n".data
      ++ "Long-form content:\n".data
      ++ "\"\"\"".data ++ strip content_text ++ "\"\"\"\n\n".data
      ++ TWITTER_OUTPUT_INSTRUCTIONS ++ "\n".data
    match adapter prompt with
    | .error e => .error e
    | .ok choices =>
      match choices with
      | [] => .ok []
      | raw_text :: _ =>
        textToVariants groq_strip_json_fences raw_text
          (fun d => .ok (normalize_threads d))

/-- `groq_service.generate_seo_meta_from_text`. -/
def generate_seo_meta_from_text
    (adapter : Str → Except Unit (List Py)) (content_text : Str)
    (title : Option Str) (primary_keyword search_intent : Str)
    (tone : Option Str) : Except Unit (List Py) :=
  if content_text.isEmpty || (strip content_text).isEmpty then .ok []
  else
    let parts : List Str :=
      [strip SEO_SYSTEM_PROMPT, []]
      ++ (match title with
          | some t => if !t.isEmpty then ["Page title: ".data ++ strip t] else []
          | Option.none => [])
      ++ ["Primary keyword: ".data ++ strip primary_keyword,
          "Search intent: ".data ++ strip search_intent]
      ++ (match tone with
          | some t => if !t.isEmpty then ["Tone: ".data ++ strip t] else []
          | Option.none => [])
      ++ ["\nLong-form content:\n".data,
          "\"\"\"".data ++ strip content_text ++ "\"\"\"".data,
          "\n".data,
          strip SEO_OUTPUT_INSTRUCTIONS]
    let prompt := (parts.intersperse "\n".data).flatten
    match adapter prompt with
    | .error e => .error e
    | .ok choices =>
      match choices with
      | [] => .ok []
      | raw_text :: _ =>
        textToVariants groq_strip_json_fences raw_text
          (fun d => .ok (normalize_seo_metas d primary_keyword))

/-! ### Pollinations image service

`random.randint(1, 999_999_999)` is drawn once per call; it is modelled
as the explicit `seed` argument, making the spec builder a pure
function. -/

/-- UTF-8 bytes of a character (as `Nat`s below 256). -/
def utf8Bytes (c : Char) : List Nat :=
  let n := c.toNat
  if n < 0x80 then [n]
  else if n < 0x800 then [0xC0 + n / 0x40, 0x80 + n % 0x40]
  else if n < 0x10000 then
    [0xE0 + n / 0x1000, 0x80 + (n / 0x40) % 0x40, 0x80 + n % 0x40]
  else
    [0xF0 + n / 0x40000, 0x80 + (n / 0x1000) % 0x40,
     0x80 + (n / 0x40) % 0x40, 0x80 + n % 0x40]

/-- Uppercase hex digit of a value below 16. -/
def hexDigitUpper (n : Nat) : Char :=
  if n < 10 then Char.ofNat (48 + n) else Char.ofNat (55 + n)

/-- `urllib.parse.quote(s, safe="")`: percent-encode every UTF-8 byte
except the always-safe unreserved characters. -/
def urlQuote (s : Str) : Str :=
  (s.map fun c =>
    if c.isAlphanum || c = '_' || c = '.' || c = '-' || c = '~' then [c]
    else ((utf8Bytes c).map fun b =>
      ['%', hexDigitUpper (b / 16), hexDigitUpper (b % 16)]).flatten).flatten

/-- `pollinations_service.build_image_prompt`. -/
def build_image_prompt (title : Option Str) (summary platform style : Str) :
    Str :=
  let base_parts : List Str :=
    (match title with
     | some t => if !t.isEmpty then ["Topic: ".data ++ strip t ++ ". ".data] else []
     | Option.none => [])
    ++ [strip summary]
  let style_description :=
    if style = "minimal_gradient".data then
      ("minimalist flat illustration, soft gradients, high contrast, no text, clean UI style").data
    else if style = "photo_realistic".data then
      ("photo-realistic scene, natural lighting, cinematic, no text").data
    else if style = "tech_dark".data then
      ("futuristic user interface on dark background, neon accents, no text").data
    else if style = "pastel_illustration".data then
      ("pastel color palette, friendly illustration, soft shapes, no text").data
    else ("modern illustration, clear focal point, no text").data
  let platform_hint :=
    if platform = "instagram".data then
      ("instagram post, square composition, visually striking, centered subject. ").data
    else
      ("social media share image, 16:9 aspect ratio, suitable as a blog or LinkedIn cover. ").data
  platform_hint ++ style_description ++ ". ".data
    ++ "Do not include any words or letters in the image. ".data
    ++ (base_parts.intersperse " ".data).flatten

/-- `pollinations_service.build_pollinations_image_url`. -/
def build_pollinations_image_url (prompt : Str) (width height : Int)
    (model : Str) (seed : Option Int) : Str :=
  let encoded_prompt := urlQuote prompt
  let base_url := "https://gen.pollinations.ai/image/".data ++ encoded_prompt
  let params : List Str :=
    ["width=".data ++ intToStr width,
     "height=".data ++ intToStr height,
     "model=".data ++ model,
     "safe=true".data]
    ++ (match seed with
        | some sd => ["seed=".data ++ intToStr sd]
        | Option.none => [])
  base_url ++ "?".data ++ (params.intersperse "&".data).flatten

/-- The fields of the ORM `Content` row the image service reads
(`title` and `original_text` are nullable text columns). -/
structure Content where
  title : Option Str
  original_text : Option Str

/-- `pollinations_service.generate_image_spec_for_content` (the one
`random.randint` draw passed in as `seed`). -/
def generate_image_spec_for_content (content : Content) (style : Str)
    (requested_type : Str) (seed : Int) : PyDict :=
  let choice : Int × Int × Str × Str :=
    if requested_type = "instagram".data then
      (1080, 1080, "image_instagram".data, "instagram".data)
    else (1200, 630, "image_cover".data, "thumbnail".data)
  let width := choice.1
  let height := choice.2.1
  let image_type := choice.2.2.1
  let platform := choice.2.2.2
  let raw_text := strip (content.original_text.getD [])
  let summary := if 400 < raw_text.length then raw_text.take 400 else raw_text
  let full_prompt := build_image_prompt content.title summary platform style
  let prompt_short := full_prompt.take 250
  let upstream_url :=
    build_pollinations_image_url prompt_short width height "flux".data (some seed)
  [("type", Py.str image_type),
   ("upstream_url", Py.str upstream_url),
   ("width", Py.int width),
   ("height", Py.int height),
   ("style", Py.str style),
   ("prompt", Py.str full_prompt),
   ("prompt_short", Py.str prompt_short),
   ("model", Py.str "flux".data),
   ("seed", Py.int seed),
   ("aspect_ratio", Py.str (intToStr width ++ ":".data ++ intToStr height))]

/-! ### Helper notions for the claim statements -/

/-- A posts item the LinkedIn platform shape considers well-formed: a
record whose computed body is non-empty after trimming. -/
def ValidPostItem (it : Py) : Prop :=
  ∃ d, it = Py.dict d ∧ postBody d ≠ []

/-- The record `_normalize_posts` emits for a well-formed item. -/
def postRec (it : Py) : Py :=
  match it with
  | Py.dict d => Py.dict [("title", Py.str (postTitle d)),
                          ("body", Py.str (postBody d))]
  | _ => Py.none

/-- `description = str(item.get("description") or "").strip()`. -/
def seoDesc (d : PyDict) : Str :=
  strip (pyStr (pyOr (dictGet d "description") (Py.str [])))

/-- A metas item the SEO platform shape considers well-formed. -/
def ValidMetaItem (it : Py) : Prop :=
  ∃ d, it = Py.dict d ∧ seoDesc d ≠ []

/-- The record `_normalize_seo_metas` emits for a well-formed item at a
given 1-based index. -/
def seoRec (kw : Str) (ie : Nat × Py) : Py :=
  match ie.2 with
  | Py.dict d => Py.dict [("id", Py.int (Int.ofNat ie.1)),
                          ("description", Py.str (seoDesc d)),
                          ("character_count", Py.int (Int.ofNat (seoDesc d).length)),
                          ("primary_keyword", Py.str kw)]
  | _ => Py.none

/-- The Instagram truncation policy applied to a raw caption text:
trim, then hard-truncate past 2200 characters and right-strip. -/
def igText (t : Str) : Str :=
  let s := strip t
  if 2200 < s.length then rstrip (s.take 2200) else s

/-- A provider response wrapping a valid threads payload in standard
triple-backtick fences with a `json` tag and newlines. -/
def fencedThreads : Str :=
  "```json\n\x7b\"threads\": [\x7b\"tweets\": [\"hello\"]\x7d]\x7d\n```".data

/-- A source text whose trimmed length is 19 characters. -/
def t19 : Str := "nineteen chars text".data

/-- A 2,300-character caption text whose 2,200-character prefix ends in
whitespace: 2,199 letters, one space, 100 more letters. -/
def t2300 : Str := List.replicate 2199 'a' ++ ' ' :: List.replicate 100 'b'

/-- A captions payload whose item has malformed-but-falsy `id`, no
`style`, and a malformed non-list non-string `hashtags`. -/
def capSafePayload : PyDict :=
  [("captions", Py.list [Py.dict [("text", Py.str "hi".data),
    ("id", Py.none), ("hashtags", Py.int 7)]])]

/-- A metas payload of 5 well-formed items. -/
def metas5 : List Py :=
  [Py.dict [("description", Py.str "d1".data)],
   Py.dict [("description", Py.str "d2".data)],
   Py.dict [("description", Py.str "d3".data)],
   Py.dict [("description", Py.str "d4".data)],
   Py.dict [("description", Py.str "d5".data)]]

/-- Subfield safety for one captions item: any truthy `text` or `style`
is a string and any truthy `id` converts with `int()`. Every falsy value
(missing, `None`, `""`, `0`, `[]`, `\x7b\x7d`) is unconditionally safe, and the
`hashtags` subfield is unconstrained — its normalization is total. -/
def SafeCaption (it : Py) : Prop :=
  ∀ d, it = Py.dict d →
    (truthy (dictGet d "text") = true → ∃ s, dictGet d "text" = Py.str s)
    ∧ (truthy (dictGet d "style") = true → ∃ s, dictGet d "style" = Py.str s)
    ∧ (truthy (dictGet d "id") = true → ∃ n, pyInt (dictGet d "id") = .ok n)

/-- Whether a metas item survives `_normalize_seo_metas`'s per-item
filter: a record whose description is non-empty after trimming. -/
def validMetaB (it : Py) : Bool :=
  match it with
  | Py.dict d => !(seoDesc d).isEmpty
  | _ => false

/-- Whether a captions item is emitted by `_normalize_instagram_captions`'s
loop (assuming the loop completes): a record whose text subfield strips,
without raising, to a non-empty string. -/
def emittedCaptionB (it : Py) : Bool :=
  match it with
  | Py.dict d =>
    match pyStripMethod (pyOr (dictGet d "text") (Py.str [])) with
    | .ok s => !s.isEmpty
    | .error _ => false
  | _ => false

theorem filterMap_eq_map_of_valid_posts (items : List Py)
    (h : ∀ it ∈ items, ValidPostItem it) :
    items.filterMap postItem = items.map postRec := by
  induction items with
  | nil => rfl
  | cons it rest ih =>
    obtain ⟨d, hd, hb⟩ := h it (List.mem_cons_self it rest)
    have hrest := ih (fun x hx => h x (List.mem_cons_of_mem _ hx))
    subst hd
    simp [List.filterMap_cons, postItem, List.isEmpty_iff, hb, hrest, postRec]

theorem enumFrom_filterMap_eq_map_of_valid_metas (kw : Str) :
    ∀ (n : Nat) (items : List Py), (∀ it ∈ items, ValidMetaItem it) →
      (enumFrom n items).filterMap (seoItem kw)
        = (enumFrom n items).map (seoRec kw)
  | _, [], _ => rfl
  | n, it :: rest, h => by
    obtain ⟨d, hd, hb⟩ := h it (List.mem_cons_self it rest)
    have hrest := enumFrom_filterMap_eq_map_of_valid_metas kw (n + 1) rest
      (fun x hx => h x (List.mem_cons_of_mem _ hx))
    subst hd
    simp only [seoDesc] at hb
    simp [enumFrom, List.filterMap_cons, seoItem, List.isEmpty_iff,
      hb, hrest, seoRec, seoDesc]

theorem enumFrom_length (n : Nat) (l : List α) :
    (enumFrom n l).length = l.length := by
  induction l generalizing n with
  | nil => rfl
  | cons x xs ih => simp [enumFrom, ih]

theorem enumFrom_fst_ge (n : Nat) (l : List α) :
    ∀ p ∈ enumFrom n l, n ≤ p.1 := by
  induction l generalizing n with
  | nil => intro p hp; cases hp
  | cons x xs ih =>
    intro p hp
    simp only [enumFrom] at hp
    rcases List.mem_cons.mp hp with hp | hp
    · subst hp; exact Nat.le_refl n
    · exact Nat.le_of_succ_le (ih (n + 1) p hp)

theorem enumFrom_snd_mem (n : Nat) (l : List α) :
    ∀ p ∈ enumFrom n l, p.2 ∈ l := by
  induction l generalizing n with
  | nil => intro p hp; cases hp
  | cons x xs ih =>
    intro p hp
    simp only [enumFrom] at hp
    rcases List.mem_cons.mp hp with hp | hp
    · subst hp; exact List.mem_cons_self x xs
    · exact List.mem_cons_of_mem _ (ih (n + 1) p hp)

theorem enumFrom_take (n k : Nat) (l : List α) :
    enumFrom n (l.take k) = (enumFrom n l).take k := by
  induction l generalizing n k with
  | nil => simp [enumFrom]
  | cons x xs ih =>
    cases k with
    | zero => rfl
    | succ k2 => simp [enumFrom, List.take_succ_cons, ih]

/-! ### Claim C1 -/

/-- C1: the resilient JSON extraction is claimed to recover the parsed
value from fenced JSON on both services' paths. It does on the Gemini
path, but `groq_service._strip_json_fences`'s pattern (a raw string with
doubled backslashes) demands literal backslash characters, so on the
Groq path standard fenced JSON is returned unchanged, the re-parse
fails, and `generate_twitter_threads_from_text` returns `[]` instead of
the parsed value — contradicting the function's own docstring and its
Gemini twin. -/
theorem C1_groq_fence_stripping_divergence :
    json_loads fencedThreads = Option.none
    ∧ gemini_strip_json_fences fencedThreads
        = "\x7b\"threads\": [\x7b\"tweets\": [\"hello\"]\x7d]\x7d".data
    ∧ json_loads (gemini_strip_json_fences fencedThreads)
        = some (Py.dict [("threads",
            Py.list [Py.dict [("tweets", Py.list [Py.str "hello".data])]])])
    ∧ groq_strip_json_fences fencedThreads = fencedThreads
    ∧ normalize_threads [("threads",
          Py.list [Py.dict [("tweets", Py.list [Py.str "hello".data])]])]
        = [Py.dict [("title", Py.str []),
                    ("tweets", Py.list [Py.str "hello".data])]]
    ∧ generate_twitter_threads_from_text (fun _ => .ok [Py.str fencedThreads])
        "long enough source text".data = .ok [] :=
  ⟨rfl, rfl, rfl, rfl, rfl, rfl⟩

/-! ### Claim C2 -/

/-- C2 (counterexample): with a 19-character trimmed source text, every
text-platform entry point *does* invoke the adapter — an adapter that
raises makes each entry point propagate the error rather than return an
empty list, so the claimed "empty list without any adapter invocation"
is false. -/
theorem C2_nineteen_char_counterexample :
    (strip t19).length = 19
    ∧ generate_linkedin_posts_from_text (fun _ => .error ()) t19 = .error ()
    ∧ generate_instagram_captions_from_text (fun _ => .error ()) t19
        "aud".data "tone".data Option.none Option.none = .error ()
    ∧ generate_twitter_threads_from_text (fun _ => .error ()) t19 = .error ()
    ∧ generate_seo_meta_from_text (fun _ => .error ()) t19 Option.none
        "kw".data "informational".data Option.none = .error ()
    ∧ (Except.error () : Except Unit (List Py)) ≠ .ok [] :=
  ⟨rfl, rfl, rfl, rfl, rfl, fun h => Except.noConfusion h⟩

/-! ### Claims C3-C6 counterexamples and C10 -/

/-- C3 (counterexample): the LinkedIn and Twitter normalizers emit
records with no identifier at all — on a well-formed single-item payload
each emitted record consists of exactly its title and body/tweets
fields, and looking up `id` finds nothing. -/
theorem C3_posts_threads_no_id_counterexample :
    normalize_posts [("posts", Py.list [Py.dict [("body", Py.str "hi".data)]])]
        = [Py.dict [("title", Py.str []), ("body", Py.str "hi".data)]]
    ∧ recGet (Py.dict [("title", Py.str []), ("body", Py.str "hi".data)]) "id"
        = Py.none
    ∧ normalize_threads [("threads",
          Py.list [Py.dict [("tweets", Py.list [Py.str "hi".data])]])]
        = [Py.dict [("title", Py.str []),
                    ("tweets", Py.list [Py.str "hi".data])]]
    ∧ recGet (Py.dict [("title", Py.str []),
        ("tweets", Py.list [Py.str "hi".data])]) "id" = Py.none :=
  ⟨rfl, rfl, rfl, rfl⟩

/-- C4 (counterexample): an item whose optional `id` subfield holds the
malformed (truthy, non-numeric) value `"abc"` makes
`_normalize_instagram_captions` raise (`int("abc")` is a `ValueError`),
failing the whole batch instead of degrading to a default. -/
theorem C4_truthy_nonnumeric_id_raises :
    normalize_instagram_captions [("captions",
        Py.list [Py.dict [("text", Py.str "hi".data),
                          ("id", Py.str "abc".data)]])] = .error () :=
  rfl

/-- C6 (counterexample): a well-formed metas payload with 4 items yields
only 3 records, so the SEO normalizer does not return one record per
input item. -/
theorem C6_seo_cap_counterexample :
    (normalize_seo_metas [("metas", Py.list
        [Py.dict [("description", Py.str "d1".data)],
         Py.dict [("description", Py.str "d2".data)],
         Py.dict [("description", Py.str "d3".data)],
         Py.dict [("description", Py.str "d4".data)]])] "kw".data).length = 3
    ∧ ([Py.dict [("description", Py.str "d1".data)],
        Py.dict [("description", Py.str "d2".data)],
        Py.dict [("description", Py.str "d3".data)],
        Py.dict [("description", Py.str "d4".data)]] : List Py).length = 4
    ∧ (3 : Nat) ≠ 4 :=
  ⟨rfl, rfl, by decide⟩

/-- C10: for every `Content`, `style` and seed, the image spec built
for `requested_type="instagram"` has width 1080, height 1080 and type
`"image_instagram"`; for `"cover"` it has width 1200, height 630 and
type `"image_cover"`; and in both cases `prompt_short` is exactly the
250-character prefix of `prompt`. -/
theorem C10_image_spec_dimensions_and_prompt_short :
    ∀ (content : Content) (style : Str) (seed : Int),
      (dictGet (generate_image_spec_for_content content style
          "instagram".data seed) "width" = Py.int 1080
        ∧ dictGet (generate_image_spec_for_content content style
            "instagram".data seed) "height" = Py.int 1080
        ∧ dictGet (generate_image_spec_for_content content style
            "instagram".data seed) "type" = Py.str "image_instagram".data
        ∧ ∃ p, dictGet (generate_image_spec_for_content content style
              "instagram".data seed) "prompt" = Py.str p
            ∧ dictGet (generate_image_spec_for_content content style
                "instagram".data seed) "prompt_short" = Py.str (p.take 250))
      ∧ (dictGet (generate_image_spec_for_content content style
            "cover".data seed) "width" = Py.int 1200
        ∧ dictGet (generate_image_spec_for_content content style
            "cover".data seed) "height" = Py.int 630
        ∧ dictGet (generate_image_spec_for_content content style
            "cover".data seed) "type" = Py.str "image_cover".data
        ∧ ∃ p, dictGet (generate_image_spec_for_content content style
              "cover".data seed) "prompt" = Py.str p
            ∧ dictGet (generate_image_spec_for_content content style
                "cover".data seed) "prompt_short" = Py.str (p.take 250)) := by
  intro content style seed
  exact ⟨⟨rfl, rfl, rfl, ⟨_, rfl, rfl⟩⟩, ⟨rfl, rfl, rfl, ⟨_, rfl, rfl⟩⟩⟩

/-! ### Claim C5 -/

theorem strip_nil : strip [] = [] := rfl

theorem isSpace_a : isSpace 'a' = false := by decide

theorem isSpace_b : isSpace 'b' = false := by decide

theorem isSpace_sp : isSpace ' ' = true := by decide

theorem lstrip_cons_not (c : Char) (l : Str) (h : isSpace c = false) :
    lstrip (c :: l) = c :: l := by
  simp [lstrip, List.dropWhile_cons, h]

theorem rstrip_append_not (l : Str) (c : Char) (h : isSpace c = false) :
    rstrip (l ++ [c]) = l ++ [c] := by
  simp [rstrip, List.reverse_append, List.dropWhile_cons, h]

theorem rstrip_append_space (l : Str) (c : Char) (h : isSpace c = true) :
    rstrip (l ++ [c]) = rstrip l := by
  simp [rstrip, List.reverse_append, List.dropWhile_cons, h]

theorem dropWhile_replicate_not (p : Char → Bool) (c : Char)
    (h : p c = false) (n : Nat) :
    List.dropWhile p (List.replicate n c) = List.replicate n c := by
  cases n with
  | zero => rfl
  | succ m => simp [List.replicate_succ, List.dropWhile_cons, h]

theorem rstrip_replicate_not (c : Char) (h : isSpace c = false) (n : Nat) :
    rstrip (List.replicate n c) = List.replicate n c := by
  simp [rstrip, List.reverse_replicate, dropWhile_replicate_not _ _ h]

theorem rstrip_length_le (l : Str) : (rstrip l).length ≤ l.length := by
  have h := (List.dropWhile_suffix (p := isSpace) (l := l.reverse)).sublist.length_le
  simpa [rstrip] using h

/-- `_normalize_instagram_captions` on a single caption whose only field
is a string `text`: the emitted record in full. -/
theorem insta_single_text (t : Str) (h : strip t ≠ []) :
    normalize_instagram_captions [("captions",
        Py.list [Py.dict [("text", Py.str t)]])]
      = .ok [Py.dict [("id", Py.int 1), ("style", Py.str "default".data),
          ("text", Py.str (igText t)), ("hashtags", Py.list []),
          ("character_count", Py.int (Int.ofNat (igText t).length))]] := by
  have ht : t ≠ [] := by
    intro h0; exact h (by rw [h0]; rfl)
  simp [normalize_instagram_captions, enumFrom, instaLoop, instaItem,
    dictGet, dictGetD, pyOr, truthy, pyStripMethod, List.isEmpty_iff,
    ht, h, igText, normHashtags, capHashtags, pyInt, bind, Except.bind,
    pure, Except.pure, strip_nil]

theorem t2300_head :
    t2300 = 'a' :: (List.replicate 2198 'a' ++ ' ' :: List.replicate 100 'b') := by
  rw [t2300,
    show List.replicate 2199 'a' = 'a' :: List.replicate 2198 'a' from
      List.replicate_succ 'a' 2198,
    List.cons_append]

theorem t2300_last :
    t2300 = (List.replicate 2199 'a' ++ ' ' :: List.replicate 99 'b') ++ ['b'] := by
  rw [t2300,
    show List.replicate 100 'b' = List.replicate 99 'b' ++ ['b'] from
      List.replicate_succ' 99 'b',
    List.append_assoc, List.cons_append]

theorem strip_t2300 : strip t2300 = t2300 := by
  rw [strip]
  conv in lstrip _ => rw [t2300_head]
  rw [lstrip_cons_not _ _ isSpace_a, ← t2300_head, t2300_last,
    rstrip_append_not _ _ isSpace_b, ← t2300_last]

theorem t2300_length : t2300.length = 2300 := by
  rw [t2300]
  simp only [List.length_append, List.length_cons, List.length_replicate]

theorem t2300_take : t2300.take 2200 = List.replicate 2199 'a' ++ [' '] := by
  rw [t2300, List.take_append_eq_append_take]
  rw [List.take_of_length_le (by simp only [List.length_replicate]; norm_num)]
  simp only [List.length_replicate]
  norm_num

theorem t2300_strip_ne : strip t2300 ≠ [] := by
  rw [strip_t2300, t2300_head]
  exact List.cons_ne_nil _ _

theorem igText_t2300 : igText t2300 = List.replicate 2199 'a' := by
  rw [igText]
  simp only [strip_t2300, t2300_length]
  rw [if_pos (by norm_num), t2300_take,
    rstrip_append_space _ _ isSpace_sp, rstrip_replicate_not _ isSpace_a]

/-- C5 (counterexample): for the 2,300-character caption text `t2300`
the emitted `text` is the right-stripped 2,200-character prefix — 2,199
characters, not 2,200 — and `character_count` is 2,199, not 2,200. -/
theorem C5_rstrip_cuts_below_2200 :
    t2300.length = 2300
    ∧ normalize_instagram_captions [("captions",
        Py.list [Py.dict [("text", Py.str t2300)]])]
      = .ok [Py.dict [("id", Py.int 1), ("style", Py.str "default".data),
          ("text", Py.str (List.replicate 2199 'a')),
          ("hashtags", Py.list []),
          ("character_count", Py.int 2199)]]
    ∧ (List.replicate 2199 'a' : Str).length = 2199
    ∧ (2199 : Int) ≠ 2200 := by
  have h := insta_single_text t2300 t2300_strip_ne
  rw [igText_t2300] at h
  simp only [List.length_replicate] at h
  exact ⟨t2300_length, h, List.length_replicate 2199 'a', by decide⟩

/-- C5 (amended): for a 2,300-character caption text, the emitted `text`
is the trimmed input hard-truncated to its 2,200-character prefix and
right-stripped (`igText`), so its length is at most 2,200 — exactly
2,200 only when that prefix does not end in whitespace — and
`character_count` always equals the emitted text's length. -/
theorem C5_truncation_amended (t : Str) (h2300 : t.length = 2300)
    (hs : strip t ≠ []) :
    normalize_instagram_captions [("captions",
        Py.list [Py.dict [("text", Py.str t)]])]
      = .ok [Py.dict [("id", Py.int 1), ("style", Py.str "default".data),
          ("text", Py.str (igText t)), ("hashtags", Py.list []),
          ("character_count", Py.int (Int.ofNat (igText t).length))]]
    ∧ (igText t).length ≤ 2200 := by
  refine ⟨insta_single_text t hs, ?_⟩
  rw [igText]
  split
  · calc (rstrip ((strip t).take 2200)).length
        ≤ ((strip t).take 2200).length := rstrip_length_le _
      _ ≤ 2200 := by simp [List.length_take]
  · omega

/-- Witness for C5 (amended), at the concrete input `t2300`. -/
theorem C5_truncation_amended_witness :
    t2300.length = 2300 ∧ strip t2300 ≠ []
    ∧ (normalize_instagram_captions [("captions",
          Py.list [Py.dict [("text", Py.str t2300)]])]
        = .ok [Py.dict [("id", Py.int 1), ("style", Py.str "default".data),
            ("text", Py.str (igText t2300)), ("hashtags", Py.list []),
            ("character_count", Py.int (Int.ofNat (igText t2300).length))]]
      ∧ (igText t2300).length ≤ 2200) :=
  ⟨t2300_length, t2300_strip_ne,
    C5_truncation_amended t2300 t2300_length t2300_strip_ne⟩

/-! ### Claim C4 -/

theorem pyStripMethod_safe (v : Py)
    (h : truthy v = true → ∃ s, v = Py.str s) :
    ∃ s, pyStripMethod (pyOr v (Py.str [])) = .ok s := by
  by_cases hc : truthy v = true
  · obtain ⟨s, hs⟩ := h hc
    subst hs
    exact ⟨strip s, by simp [pyOr, hc, pyStripMethod]⟩
  · exact ⟨[], by simp [pyOr, hc, pyStripMethod, strip_nil]⟩

theorem pyInt_safe (v : Py) (i : Nat)
    (h : truthy v = true → ∃ n, pyInt v = .ok n) :
    ∃ n, pyInt (pyOr v (Py.int (Int.ofNat i))) = .ok n := by
  by_cases hc : truthy v = true
  · obtain ⟨n, hn⟩ := h hc
    exact ⟨n, by simp [pyOr, hc, hn]⟩
  · exact ⟨Int.ofNat i, by simp [pyOr, hc, pyInt]⟩

theorem instaItem_safe (ie : Nat × Py) (h : SafeCaption ie.2) :
    ∃ o, instaItem ie = .ok o := by
  obtain ⟨i, it⟩ := ie
  cases it with
  | dict d =>
    obtain ⟨htext, hstyle, hid⟩ := h d rfl
    obtain ⟨s1, hs1⟩ := pyStripMethod_safe _ htext
    obtain ⟨s2, hs2⟩ := pyStripMethod_safe _ hstyle
    obtain ⟨n3, hn3⟩ := pyInt_safe _ i hid
    simp only [instaItem, hs1, hs2, hn3, bind, Except.bind]
    split
    · exact ⟨Option.none, rfl⟩
    · exact ⟨_, rfl⟩
  | none => exact ⟨Option.none, rfl⟩
  | bool b => exact ⟨Option.none, rfl⟩
  | int n => exact ⟨Option.none, rfl⟩
  | float m e => exact ⟨Option.none, rfl⟩
  | str s => exact ⟨Option.none, rfl⟩
  | list xs => exact ⟨Option.none, rfl⟩

theorem instaLoop_safe (ps : List (Nat × Py))
    (h : ∀ ie ∈ ps, ∃ o, instaItem ie = .ok o) :
    ∃ l, instaLoop ps = .ok l := by
  induction ps with
  | nil => exact ⟨[], rfl⟩
  | cons ie rest ih =>
    obtain ⟨o, ho⟩ := h ie (List.mem_cons_self ie rest)
    obtain ⟨l, hl⟩ := ih (fun x hx => h x (List.mem_cons_of_mem _ hx))
    cases o with
    | none =>
      exact ⟨l, by simp [instaLoop, ho, hl, bind, Except.bind, pure, Except.pure]⟩
    | some v =>
      exact ⟨v :: l, by simp [instaLoop, ho, hl, bind, Except.bind, pure, Except.pure]⟩

/-- The `.strip()` call raises on any value that is not a string. -/
theorem pyStripMethod_error (v : Py) (h : ∀ s, v ≠ Py.str s) :
    pyStripMethod v = .error () := by
  cases v with
  | str s => exact absurd rfl (h s)
  | none => rfl
  | bool b => rfl
  | int m => rfl
  | float m e => rfl
  | list xs => rfl
  | dict d2 => rfl

/-- A hashtags value that is neither a list nor a string degrades to no
hashtags at all. -/
theorem normHashtags_default (v : Py) (hl : ∀ xs, v ≠ Py.list xs)
    (hs2 : ∀ s2, v ≠ Py.str s2) : normHashtags v = [] := by
  cases v with
  | list xs => exact absurd rfl (hl xs)
  | str s2 => exact absurd rfl (hs2 s2)
  | none => rfl
  | bool b => rfl
  | int m => rfl
  | float m e => rfl
  | dict d2 => rfl

/-- The loop body on an item with a string text and falsy `style` and
`id` subfields: every optional field takes its default (`"default"`, the
enumerate index, the normalized hashtag list), for a hashtags value of
any shape. -/
theorem instaItem_defaults (i : Nat) (d : PyDict) (t : Str)
    (htext : dictGet d "text" = Py.str t) (hts : strip t ≠ [])
    (hstyle : truthy (dictGet d "style") = false)
    (hid : truthy (dictGet d "id") = false) :
    instaItem (i, Py.dict d) = .ok (some (Py.dict
      [("id", Py.int (Int.ofNat i)), ("style", Py.str "default".data),
       ("text", Py.str (igText t)),
       ("hashtags", Py.list
         ((capHashtags (normHashtags (dictGet d "hashtags"))).map Py.str)),
       ("character_count", Py.int (Int.ofNat (igText t).length))])) := by
  have htne : t ≠ [] := fun h0 => hts (by rw [h0]; rfl)
  have h1 : pyOr (dictGet d "text") (Py.str []) = Py.str t := by
    rw [htext]
    simp [pyOr, truthy, List.isEmpty_iff, htne]
  have h2 : pyOr (dictGet d "style") (Py.str []) = Py.str [] := by
    simp [pyOr, hstyle]
  have h3 : pyOr (dictGet d "id") (Py.int (i : Int)) = Py.int (i : Int) := by
    simp [pyOr, hid]
  have h4 : pyInt (Py.int (i : Int)) = .ok (i : Int) := rfl
  simp [instaItem, h1, h2, h3, h4, pyStripMethod, List.isEmpty_iff, hts,
    bind, Except.bind, pure, Except.pure, igText, strip_nil]

/-- The loop body silently drops a record exactly when its text subfield
strips to the empty string. -/
theorem instaItem_none_iff (i : Nat) (d : PyDict) :
    instaItem (i, Py.dict d) = .ok Option.none ↔
      pyStripMethod (pyOr (dictGet d "text") (Py.str [])) = .ok [] := by
  constructor
  · intro h
    cases ht : pyStripMethod (pyOr (dictGet d "text") (Py.str [])) with
    | error e => simp [instaItem, ht, bind, Except.bind] at h
    | ok s =>
      by_cases hse : s = []
      · rw [hse]
      · cases h2 : pyStripMethod (pyOr (dictGet d "style") (Py.str [])) with
        | error e =>
          simp [instaItem, ht, h2, hse, List.isEmpty_iff, bind, Except.bind] at h
        | ok s2 =>
          cases h3 : pyInt (pyOr (dictGet d "id") (Py.int (i : Int))) with
          | error e =>
            simp [instaItem, ht, h2, h3, hse, List.isEmpty_iff, bind,
              Except.bind, pure, Except.pure] at h
          | ok idv =>
            simp [instaItem, ht, h2, h3, hse, List.isEmpty_iff, bind,
              Except.bind, pure, Except.pure] at h
  · intro ht
    simp [instaItem, ht, bind, Except.bind, pure, Except.pure]

/-- Non-record items are skipped without raising. -/
theorem instaItem_skip_nonrecord (i : Nat) (it : Py)
    (h : ∀ d, it ≠ Py.dict d) : instaItem (i, it) = .ok Option.none := by
  cases it with
  | dict d => exact absurd rfl (h d)
  | none => rfl
  | bool b => rfl
  | int m => rfl
  | float m e => rfl
  | str s => rfl
  | list xs => rfl

/-- A truthy non-string text raises (`AttributeError` on `.strip()`). -/
theorem instaItem_text_raises (i : Nat) (d : PyDict)
    (htr : truthy (dictGet d "text") = true)
    (hns : ∀ s, dictGet d "text" ≠ Py.str s) :
    instaItem (i, Py.dict d) = .error () := by
  have h1 : pyOr (dictGet d "text") (Py.str []) = dictGet d "text" := by
    simp [pyOr, htr]
  have h2 : pyStripMethod (dictGet d "text") = .error () :=
    pyStripMethod_error _ hns
  simp [instaItem, h1, h2, bind, Except.bind]

/-- A truthy non-string style raises once the text check passes. -/
theorem instaItem_style_raises (i : Nat) (d : PyDict) (t : Str)
    (htext : dictGet d "text" = Py.str t) (hts : strip t ≠ [])
    (hstr : truthy (dictGet d "style") = true)
    (hns : ∀ s, dictGet d "style" ≠ Py.str s) :
    instaItem (i, Py.dict d) = .error () := by
  have htne : t ≠ [] := fun h0 => hts (by rw [h0]; rfl)
  have h1 : pyOr (dictGet d "text") (Py.str []) = Py.str t := by
    rw [htext]
    simp [pyOr, truthy, List.isEmpty_iff, htne]
  have h2 : pyOr (dictGet d "style") (Py.str []) = dictGet d "style" := by
    simp [pyOr, hstr]
  have h3 : pyStripMethod (dictGet d "style") = .error () :=
    pyStripMethod_error _ hns
  simp [instaItem, h1, h2, h3, pyStripMethod, List.isEmpty_iff, hts,
    bind, Except.bind]

/-- An exception in any iteration aborts the whole loop. -/
theorem instaLoop_error_of_mem (ps : List (Nat × Py))
    (h : ∃ ie ∈ ps, instaItem ie = .error ()) : instaLoop ps = .error () := by
  induction ps with
  | nil =>
    obtain ⟨ie, hm, _⟩ := h
    cases hm
  | cons ie rest ih =>
    obtain ⟨ie2, hm, he⟩ := h
    rcases List.mem_cons.mp hm with h0 | h0
    · subst h0
      simp [instaLoop, he, bind, Except.bind]
    · cases h1 : instaItem ie with
      | error e =>
        cases e
        simp [instaLoop, h1, bind, Except.bind]
      | ok o =>
        have hrest := ih ⟨ie2, h0, he⟩
        simp [instaLoop, h1, hrest, bind, Except.bind]

/-- C4 (amended): `_normalize_instagram_captions` returns a list without
raising whenever every item's truthy `text`/`style` is a string and
truthy `id` is numeric, and one item's exception fails the whole batch.
Per item: with falsy `style`/`id` every optional field degrades to its
default (`"default"`, the enumerate index) and any-shaped hashtags
normalize to a list, a non-list non-string hashtags value degrading to
no hashtags; an item is silently dropped exactly when its text strips to
empty, non-records are skipped; and a truthy non-string `text` or
`style` raises instead of degrading (as a truthy non-numeric `id` does
in the counterexample). -/
theorem C4_safe_subfields_no_raise :
    (∀ parsed : PyDict,
        (∀ items, dictGet parsed "captions" = Py.list items →
          ∀ it ∈ items, SafeCaption it) →
        ∃ l, normalize_instagram_captions parsed = .ok l)
    ∧ (∀ (parsed : PyDict) (captions : List Py),
        dictGet parsed "captions" = Py.list captions →
        (∃ ie ∈ enumFrom 1 captions, instaItem ie = .error ()) →
        normalize_instagram_captions parsed = .error ())
    ∧ (∀ (i : Nat) (d : PyDict) (t : Str),
        dictGet d "text" = Py.str t → strip t ≠ [] →
        truthy (dictGet d "style") = false → truthy (dictGet d "id") = false →
        instaItem (i, Py.dict d) = .ok (some (Py.dict
          [("id", Py.int (Int.ofNat i)), ("style", Py.str "default".data),
           ("text", Py.str (igText t)),
           ("hashtags", Py.list
             ((capHashtags (normHashtags (dictGet d "hashtags"))).map Py.str)),
           ("character_count", Py.int (Int.ofNat (igText t).length))])))
    ∧ (∀ v : Py, (∀ xs, v ≠ Py.list xs) → (∀ s2, v ≠ Py.str s2) →
        normHashtags v = [])
    ∧ (∀ (i : Nat) (d : PyDict),
        instaItem (i, Py.dict d) = .ok Option.none ↔
          pyStripMethod (pyOr (dictGet d "text") (Py.str [])) = .ok [])
    ∧ (∀ (i : Nat) (it : Py), (∀ d, it ≠ Py.dict d) →
        instaItem (i, it) = .ok Option.none)
    ∧ (∀ (i : Nat) (d : PyDict), truthy (dictGet d "text") = true →
        (∀ s, dictGet d "text" ≠ Py.str s) →
        instaItem (i, Py.dict d) = .error ())
    ∧ (∀ (i : Nat) (d : PyDict) (t : Str),
        dictGet d "text" = Py.str t → strip t ≠ [] →
        truthy (dictGet d "style") = true →
        (∀ s, dictGet d "style" ≠ Py.str s) →
        instaItem (i, Py.dict d) = .error ()) := by
  refine ⟨?_, ?_, instaItem_defaults, normHashtags_default, instaItem_none_iff,
    instaItem_skip_nonrecord, instaItem_text_raises, instaItem_style_raises⟩
  · intro parsed h
    unfold normalize_instagram_captions
    split
    next items heq =>
      have hsafe : ∀ ie ∈ enumFrom 1 items, ∃ o, instaItem ie = .ok o :=
        fun ie hie => instaItem_safe ie
          (h items heq ie.2 (enumFrom_snd_mem 1 items ie hie))
      obtain ⟨l, hl⟩ := instaLoop_safe _ hsafe
      exact ⟨l.take 3, by simp [hl, bind, Except.bind, pure, Except.pure]⟩
    next heq2 =>
      exact ⟨[], rfl⟩
  · intro parsed captions hm hex
    have hb : normalize_instagram_captions parsed
        = (instaLoop (enumFrom 1 captions)).bind (fun a => pure (a.take 3)) := by
      unfold normalize_instagram_captions
      rw [hm]
      rfl
    rw [hb, instaLoop_error_of_mem _ hex]
    rfl

/-- Witness for C4 (amended): all eight conjuncts applied at concrete
inputs (`capSafePayload`, a truthy non-numeric `id`, junk hashtags, a
whitespace text, a non-record item, non-string `text` and `style`). -/
theorem C4_safe_subfields_no_raise_witness :
    ((∀ items, dictGet capSafePayload "captions" = Py.list items →
        ∀ it ∈ items, SafeCaption it)
      ∧ ∃ l, normalize_instagram_captions capSafePayload = .ok l)
    ∧ (dictGet [("captions", Py.list [Py.dict [("text", Py.str "hi".data),
          ("id", Py.str "abc".data)]])] "captions"
        = Py.list [Py.dict [("text", Py.str "hi".data), ("id", Py.str "abc".data)]]
      ∧ (∃ ie ∈ enumFrom 1 [Py.dict [("text", Py.str "hi".data),
            ("id", Py.str "abc".data)]], instaItem ie = .error ())
      ∧ normalize_instagram_captions [("captions",
          Py.list [Py.dict [("text", Py.str "hi".data),
            ("id", Py.str "abc".data)]])] = .error ())
    ∧ instaItem (1, Py.dict [("text", Py.str "hello".data), ("hashtags", Py.int 5)])
        = .ok (some (Py.dict
          [("id", Py.int (Int.ofNat 1)), ("style", Py.str "default".data),
           ("text", Py.str (igText "hello".data)),
           ("hashtags", Py.list ((capHashtags (normHashtags
             (dictGet [("text", Py.str "hello".data), ("hashtags", Py.int 5)]
               "hashtags"))).map Py.str)),
           ("character_count", Py.int (Int.ofNat (igText "hello".data).length))]))
    ∧ normHashtags (Py.int 7) = []
    ∧ (instaItem (1, Py.dict [("text", Py.str "  ".data)]) = .ok Option.none ↔
        pyStripMethod (pyOr (dictGet [("text", Py.str "  ".data)] "text")
          (Py.str [])) = .ok [])
    ∧ instaItem (1, Py.str "x".data) = .ok Option.none
    ∧ instaItem (1, Py.dict [("text", Py.int 5)]) = .error ()
    ∧ instaItem (1, Py.dict [("text", Py.str "hello".data), ("style", Py.int 5)])
        = .error () := by
  have hyp : ∀ items, dictGet capSafePayload "captions" = Py.list items →
      ∀ it ∈ items, SafeCaption it := by
    intro items hitems it hit
    have h0 : dictGet capSafePayload "captions"
        = Py.list [Py.dict [("text", Py.str "hi".data),
            ("id", Py.none), ("hashtags", Py.int 7)]] := rfl
    have h1 := h0.symm.trans hitems
    injection h1 with h2
    subst h2
    have h3 := List.mem_singleton.mp hit
    subst h3
    intro d hd
    injection hd with hd2
    subst hd2
    refine ⟨fun _ => ⟨"hi".data, rfl⟩, fun hc => absurd hc (by decide),
      fun hc => absurd hc (by decide)⟩
  have hex : ∃ ie ∈ enumFrom 1 [Py.dict [("text", Py.str "hi".data),
      ("id", Py.str "abc".data)]], instaItem ie = .error () := by
    refine ⟨(1, Py.dict [("text", Py.str "hi".data), ("id", Py.str "abc".data)]),
      ?_, rfl⟩
    exact List.mem_singleton_self _
  refine ⟨⟨hyp, C4_safe_subfields_no_raise.1 capSafePayload hyp⟩,
    ⟨rfl, hex, C4_safe_subfields_no_raise.2.1 _ _ rfl hex⟩,
    C4_safe_subfields_no_raise.2.2.1 1 _ "hello".data rfl (by decide) rfl rfl,
    C4_safe_subfields_no_raise.2.2.2.1 (Py.int 7) (fun xs h => Py.noConfusion h)
      (fun s2 h => Py.noConfusion h),
    C4_safe_subfields_no_raise.2.2.2.2.1 1 [("text", Py.str "  ".data)],
    C4_safe_subfields_no_raise.2.2.2.2.2.1 1 (Py.str "x".data) (fun d h => Py.noConfusion h),
    C4_safe_subfields_no_raise.2.2.2.2.2.2.1 1 [("text", Py.int 5)] rfl (fun s h => Py.noConfusion h),
    C4_safe_subfields_no_raise.2.2.2.2.2.2.2 1 [("text", Py.str "hello".data), ("style", Py.int 5)]
      "hello".data rfl (by decide) rfl (fun s h => Py.noConfusion h)⟩

/-! ### Claim C3 -/

theorem instaItem_ok_some (ie : Nat × Py) (r : Py)
    (h : instaItem ie = .ok (some r)) : ∃ n : Int, recGet r "id" = Py.int n := by
  obtain ⟨i, it⟩ := ie
  cases it with
  | dict d =>
    cases h1 : pyStripMethod (pyOr (dictGet d "text") (Py.str [])) with
    | error e => simp [instaItem, h1, bind, Except.bind] at h
    | ok s1 =>
      by_cases he : s1 = []
      · simp [instaItem, h1, he, bind, Except.bind, pure, Except.pure] at h
      · cases h2 : pyStripMethod (pyOr (dictGet d "style") (Py.str [])) with
        | error e => simp [instaItem, h1, h2, he, bind, Except.bind] at h
        | ok s2 =>
          cases h3 : pyInt (pyOr (dictGet d "id") (Py.int (i : Int))) with
          | error e =>
            simp [instaItem, h1, h2, h3, he, bind, Except.bind, pure, Except.pure] at h
          | ok n =>
            simp [instaItem, h1, h2, h3, he, bind, Except.bind, pure, Except.pure] at h
            exact ⟨n, by rw [← h]; rfl⟩
  | none => simp [instaItem, pure, Except.pure] at h
  | bool b => simp [instaItem, pure, Except.pure] at h
  | int n => simp [instaItem, pure, Except.pure] at h
  | float m e => simp [instaItem, pure, Except.pure] at h
  | str s => simp [instaItem, pure, Except.pure] at h
  | list xs => simp [instaItem, pure, Except.pure] at h

theorem instaLoop_mem (ps : List (Nat × Py)) (l : List Py) (r : Py)
    (h : instaLoop ps = .ok l) (hr : r ∈ l) :
    ∃ ie ∈ ps, instaItem ie = .ok (some r) := by
  induction ps generalizing l with
  | nil =>
    simp only [instaLoop] at h
    cases h
    cases hr
  | cons ie rest ih =>
    simp only [instaLoop, bind, Except.bind] at h
    cases h1 : instaItem ie with
    | error e => rw [h1] at h; cases h
    | ok o =>
      rw [h1] at h
      cases h2 : instaLoop rest with
      | error e => rw [h2] at h; cases h
      | ok rs =>
        rw [h2] at h
        cases o with
        | none =>
          simp only [pure, Except.pure, Except.ok.injEq] at h
          subst h
          obtain ⟨ie2, hm, he⟩ := ih rs h2 hr
          exact ⟨ie2, List.mem_cons_of_mem _ hm, he⟩
        | some v =>
          simp only [pure, Except.pure, Except.ok.injEq] at h
          subst h
          rcases List.mem_cons.mp hr with hv | hv
          · subst hv; exact ⟨ie, List.mem_cons_self _ _, h1⟩
          · obtain ⟨ie2, hm, he⟩ := ih rs h2 hv
            exact ⟨ie2, List.mem_cons_of_mem _ hm, he⟩

theorem seoItem_valid (kw : Str) (n : Nat) (d : PyDict) (hd : seoDesc d ≠ []) :
    seoItem kw (n, Py.dict d) = some (Py.dict
      [("id", Py.int (Int.ofNat n)),
       ("description", Py.str (seoDesc d)),
       ("character_count", Py.int (Int.ofNat (seoDesc d).length)),
       ("primary_keyword", Py.str kw)]) := by
  simp only [seoDesc] at hd
  simp [seoItem, seoDesc, hd, List.isEmpty_iff]

theorem seoItem_invalid (kw : Str) (n : Nat) (it : Py)
    (h : validMetaB it = false) : seoItem kw (n, it) = Option.none := by
  cases it with
  | dict d =>
    simp only [validMetaB, Bool.not_eq_false'] at h
    have hd : seoDesc d = [] := List.isEmpty_iff.mp h
    simp only [seoDesc] at hd
    simp [seoItem, hd, List.isEmpty_iff]
  | none => rfl
  | bool b => rfl
  | int m => rfl
  | float m e => rfl
  | str s2 => rfl
  | list xs => rfl

theorem seo_pos (kw : Str) :
    ∀ (metas : List Py) (n j : Nat) (d : PyDict),
      metas.get? j = some (Py.dict d) → seoDesc d ≠ [] →
      ((enumFrom n metas).filterMap (seoItem kw)).get?
          ((metas.take j).countP validMetaB)
        = some (Py.dict [("id", Py.int (Int.ofNat (n + j))),
            ("description", Py.str (seoDesc d)),
            ("character_count", Py.int (Int.ofNat (seoDesc d).length)),
            ("primary_keyword", Py.str kw)]) := by
  intro metas
  induction metas with
  | nil => intro n j d hj; simp at hj
  | cons it rest ih =>
    intro n j d hj hd
    cases j with
    | zero =>
      have hit : it = Py.dict d := by
        have : some it = some (Py.dict d) := hj
        injection this
      subst hit
      simp only [enumFrom, List.filterMap_cons, seoItem_valid kw n d hd]
      simp
    | succ j2 =>
      have hj' : rest.get? j2 = some (Py.dict d) := hj
      have harith : n + 1 + j2 = n + (j2 + 1) := by omega
      cases hv : validMetaB it with
      | false =>
        simp only [enumFrom, List.filterMap_cons, seoItem_invalid kw n it hv,
          List.take_succ_cons, List.countP_cons, hv, if_false, Nat.add_zero]
        rw [← harith]
        exact ih (n + 1) j2 d hj' hd
      | true =>
        obtain ⟨d0, hit⟩ : ∃ d0, it = Py.dict d0 := by
          cases it with
          | dict d0 => exact ⟨d0, rfl⟩
          | none => simp [validMetaB] at hv
          | bool b => simp [validMetaB] at hv
          | int m => simp [validMetaB] at hv
          | float m e => simp [validMetaB] at hv
          | str s2 => simp [validMetaB] at hv
          | list xs => simp [validMetaB] at hv
        subst hit
        have hd0 : seoDesc d0 ≠ [] := by
          simp only [validMetaB, Bool.not_eq_false'] at hv
          simp [List.isEmpty_iff] at hv
          exact hv
        simp only [enumFrom, List.filterMap_cons, seoItem_valid kw n d0 hd0,
          List.take_succ_cons, List.countP_cons, hv, if_true]
        rw [← harith]
        exact ih (n + 1) j2 d hj' hd

theorem instaItem_ok_of_text (n : Nat) (d : PyDict) (o : Option Py) (s : Str)
    (ht : pyStripMethod (pyOr (dictGet d "text") (Py.str [])) = .ok s)
    (hs : s ≠ []) (h : instaItem (n, Py.dict d) = .ok o) :
    ∃ r idv, o = some r ∧ recGet r "id" = Py.int idv
      ∧ pyInt (pyOr (dictGet d "id") (Py.int (Int.ofNat n))) = .ok idv := by
  cases h2 : pyStripMethod (pyOr (dictGet d "style") (Py.str [])) with
  | error e =>
    simp [instaItem, ht, h2, List.isEmpty_iff, hs, bind, Except.bind] at h
  | ok s2 =>
    cases h3 : pyInt (pyOr (dictGet d "id") (Py.int (n : Int))) with
    | error e =>
      simp [instaItem, ht, h2, h3, List.isEmpty_iff, hs, bind, Except.bind,
        pure, Except.pure] at h
    | ok idv =>
      simp [instaItem, ht, h2, h3, List.isEmpty_iff, hs, bind, Except.bind,
        pure, Except.pure] at h
      subst h
      refine ⟨_, idv, rfl, rfl, rfl⟩

theorem instaItem_ok_none_of_not_emitted (n : Nat) (it : Py) (o : Option Py)
    (hemit : emittedCaptionB it = false) (h : instaItem (n, it) = .ok o) :
    o = Option.none := by
  cases it with
  | dict d =>
    cases ht : pyStripMethod (pyOr (dictGet d "text") (Py.str [])) with
    | error e => simp [instaItem, ht, bind, Except.bind] at h
    | ok s =>
      have hse : s.isEmpty = true := by
        simp only [emittedCaptionB, ht, Bool.not_eq_false'] at hemit
        exact hemit
      simp only [instaItem, ht, bind, Except.bind] at h
      rw [if_pos hse] at h
      injection h with h4
      exact h4.symm
  | none => injection h with h4; exact h4.symm
  | bool b => injection h with h4; exact h4.symm
  | int m => injection h with h4; exact h4.symm
  | float m e => injection h with h4; exact h4.symm
  | str s2 => injection h with h4; exact h4.symm
  | list xs => injection h with h4; exact h4.symm

theorem insta_pos :
    ∀ (captions : List Py) (n : Nat) (l : List Py),
      instaLoop (enumFrom n captions) = .ok l →
      ∀ (j : Nat) (d : PyDict) (s : Str),
        captions.get? j = some (Py.dict d) →
        pyStripMethod (pyOr (dictGet d "text") (Py.str [])) = .ok s → s ≠ [] →
        ∃ r idv, l.get? ((captions.take j).countP emittedCaptionB) = some r
          ∧ recGet r "id" = Py.int idv
          ∧ pyInt (pyOr (dictGet d "id") (Py.int (Int.ofNat (n + j)))) = .ok idv := by
  intro captions
  induction captions with
  | nil => intro n l _ j d s hj; simp at hj
  | cons it rest ih =>
    intro n l hloop j d s hj ht hs
    simp only [enumFrom, instaLoop, bind, Except.bind] at hloop
    cases h1 : instaItem (n, it) with
    | error e => rw [h1] at hloop; cases hloop
    | ok o =>
      rw [h1] at hloop
      cases h2 : instaLoop (enumFrom (n + 1) rest) with
      | error e => rw [h2] at hloop; cases hloop
      | ok rs =>
        rw [h2] at hloop
        cases j with
        | zero =>
          have hit : it = Py.dict d := by
            have : some it = some (Py.dict d) := hj
            injection this
          subst hit
          obtain ⟨r, idv, ho, hr, hid⟩ := instaItem_ok_of_text n d o s ht hs h1
          subst ho
          simp only [pure, Except.pure, Except.ok.injEq] at hloop
          subst hloop
          refine ⟨r, idv, ?_, hr, ?_⟩
          · simp
          · simpa using hid
        | succ j2 =>
          have hj' : rest.get? j2 = some (Py.dict d) := hj
          have harith : n + 1 + j2 = n + (j2 + 1) := by omega
          cases hemit : emittedCaptionB it with
          | false =>
            have ho := instaItem_ok_none_of_not_emitted n it o hemit h1
            subst ho
            simp only [pure, Except.pure, Except.ok.injEq] at hloop
            subst hloop
            simp only [List.take_succ_cons, List.countP_cons, hemit, if_false,
              Nat.add_zero]
            obtain ⟨r, idv, hg, hr, hid⟩ := ih (n + 1) rs h2 j2 d s hj' ht hs
            refine ⟨r, idv, hg, hr, ?_⟩
            rw [← harith]
            exact hid
          | true =>
            obtain ⟨d0, hit⟩ : ∃ d0, it = Py.dict d0 := by
              cases it with
              | dict d0 => exact ⟨d0, rfl⟩
              | none => simp [emittedCaptionB] at hemit
              | bool b => simp [emittedCaptionB] at hemit
              | int m => simp [emittedCaptionB] at hemit
              | float m e => simp [emittedCaptionB] at hemit
              | str s2 => simp [emittedCaptionB] at hemit
              | list xs => simp [emittedCaptionB] at hemit
            subst hit
            obtain ⟨s0, ht0, hs0⟩ : ∃ s0,
                pyStripMethod (pyOr (dictGet d0 "text") (Py.str [])) = .ok s0
                ∧ s0 ≠ [] := by
              cases ht0 : pyStripMethod (pyOr (dictGet d0 "text") (Py.str [])) with
              | error e => simp [emittedCaptionB, ht0] at hemit
              | ok s0 =>
                refine ⟨s0, rfl, ?_⟩
                simp only [emittedCaptionB, ht0, Bool.not_eq_eq_eq_not,
                  Bool.not_false] at hemit
                exact fun h0 => by simp [h0] at hemit
            obtain ⟨r0, idv0, ho, _, _⟩ := instaItem_ok_of_text n d0 o s0 ht0 hs0 h1
            subst ho
            simp only [pure, Except.pure, Except.ok.injEq] at hloop
            subst hloop
            simp only [List.take_succ_cons, List.countP_cons, hemit, if_true]
            obtain ⟨r, idv, hg, hr, hid⟩ := ih (n + 1) rs h2 j2 d s hj' ht hs
            refine ⟨r, idv, hg, hr, ?_⟩
            rw [← harith]
            exact hid

/-- C3 (amended): the LinkedIn and Twitter normalizers emit records with
no identifier field at all; the SEO normalizer stamps each emitted
record with the 1-based `enumerate` index of its source item (in source
order, skipped items still consuming indices); the Instagram normalizer
stamps each emitted record with `int()` of the provider-supplied id when
that id is truthy, and with the 1-based `enumerate` index otherwise. -/
theorem C3_ordinal_identifiers :
    (∀ parsed r, r ∈ normalize_posts parsed → recGet r "id" = Py.none)
    ∧ (∀ parsed r, r ∈ normalize_threads parsed → recGet r "id" = Py.none)
    ∧ (∀ (parsed : PyDict) (kw : Str) (metas : List Py) (j : Nat) (d : PyDict),
        dictGet parsed "metas" = Py.list metas →
        metas.get? j = some (Py.dict d) → seoDesc d ≠ [] →
        (metas.take j).countP validMetaB < 3 →
        (normalize_seo_metas parsed kw).get? ((metas.take j).countP validMetaB)
          = some (Py.dict [("id", Py.int (Int.ofNat (j + 1))),
              ("description", Py.str (seoDesc d)),
              ("character_count", Py.int (Int.ofNat (seoDesc d).length)),
              ("primary_keyword", Py.str kw)]))
    ∧ (∀ (parsed : PyDict) (captions l : List Py) (j : Nat) (d : PyDict) (s : Str),
        dictGet parsed "captions" = Py.list captions →
        normalize_instagram_captions parsed = .ok l →
        captions.get? j = some (Py.dict d) →
        pyStripMethod (pyOr (dictGet d "text") (Py.str [])) = .ok s → s ≠ [] →
        (captions.take j).countP emittedCaptionB < 3 →
        ∃ r idv, l.get? ((captions.take j).countP emittedCaptionB) = some r
          ∧ recGet r "id" = Py.int idv
          ∧ (truthy (dictGet d "id") = true → pyInt (dictGet d "id") = .ok idv)
          ∧ (truthy (dictGet d "id") = false → idv = Int.ofNat (j + 1))) := by
  refine ⟨?_, ?_, ?_, ?_⟩
  · intro parsed r hr
    unfold normalize_posts at hr
    split at hr
    · obtain ⟨it, hm, heq⟩ := List.mem_filterMap.mp hr
      cases it with
      | dict d =>
        simp only [postItem] at heq
        split at heq
        · cases heq
        · cases heq; rfl
      | none => cases heq
      | bool b => cases heq
      | int n => cases heq
      | float m e => cases heq
      | str s => cases heq
      | list xs => cases heq
    · cases hr
  · intro parsed r hr
    unfold normalize_threads at hr
    split at hr
    · obtain ⟨it, hm, heq⟩ := List.mem_filterMap.mp hr
      cases it with
      | dict d =>
        simp only [threadItem] at heq
        split at heq
        · split at heq
          · cases heq
          · cases heq; rfl
        · cases heq
      | none => cases heq
      | bool b => cases heq
      | int n => cases heq
      | float m e => cases heq
      | str s => cases heq
      | list xs => cases heq
    · cases hr
  · intro parsed kw metas j d hm hj hd hlt
    unfold normalize_seo_metas
    rw [hm]
    show (((enumFrom 1 metas).filterMap (seoItem kw)).take 3).get? _ = _
    rw [List.get?_take hlt]
    have h := seo_pos kw metas 1 j d hj hd
    rw [show 1 + j = j + 1 from by omega] at h
    exact h
  · intro parsed captions l j d s hm hok hj ht hs hlt
    have hb : normalize_instagram_captions parsed
        = (instaLoop (enumFrom 1 captions)).bind (fun a => pure (a.take 3)) := by
      unfold normalize_instagram_captions
      rw [hm]
      rfl
    rw [hb] at hok
    cases hlp : instaLoop (enumFrom 1 captions) with
    | error e => rw [hlp] at hok; cases hok
    | ok rs =>
      rw [hlp] at hok
      simp only [Except.bind, pure, Except.pure, Except.ok.injEq] at hok
      subst hok
      obtain ⟨r, idv, hg, hr, hid⟩ := insta_pos captions 1 rs hlp j d s hj ht hs
      refine ⟨r, idv, ?_, hr, ?_, ?_⟩
      · rw [List.get?_take hlt]
        exact hg
      · intro htr
        rw [show pyOr (dictGet d "id") (Py.int (Int.ofNat (1 + j)))
          = dictGet d "id" from by simp [pyOr, htr]] at hid
        exact hid
      · intro hfa
        rw [show pyOr (dictGet d "id") (Py.int (Int.ofNat (1 + j)))
          = Py.int (Int.ofNat (1 + j)) from by simp [pyOr, hfa]] at hid
        have h2 : Except.ok (Int.ofNat (1 + j)) = Except.ok idv := hid
        injection h2 with h3
        rw [← h3]
        congr 1
        omega
/-- Witness for C3 (amended): all four conjuncts at concrete payloads —
the SEO conjunct at a two-item metas list whose first item is skipped
(the second source item, index 2, lands at output position 0 with id 2),
the Instagram conjunct at an item carrying a truthy provider id 7. -/
theorem C3_ordinal_identifiers_witness :
    (Py.dict [("title", Py.str []), ("body", Py.str "hi".data)]
        ∈ normalize_posts [("posts", Py.list [Py.dict [("body", Py.str "hi".data)]])]
      ∧ recGet (Py.dict [("title", Py.str []), ("body", Py.str "hi".data)]) "id"
          = Py.none)
    ∧ (Py.dict [("title", Py.str []), ("tweets", Py.list [Py.str "hi".data])]
        ∈ normalize_threads [("threads",
            Py.list [Py.dict [("tweets", Py.list [Py.str "hi".data])]])]
      ∧ recGet (Py.dict [("title", Py.str []),
          ("tweets", Py.list [Py.str "hi".data])]) "id" = Py.none)
    ∧ ((normalize_seo_metas [("metas", Py.list
          [Py.str "skipped".data, Py.dict [("description", Py.str "d".data)]])]
          "kw".data).get?
          (([Py.str "skipped".data,
             Py.dict [("description", Py.str "d".data)]].take 1).countP validMetaB)
        = some (Py.dict [("id", Py.int (Int.ofNat (1 + 1))),
            ("description",
              Py.str (seoDesc [("description", Py.str "d".data)])),
            ("character_count",
              Py.int (Int.ofNat (seoDesc [("description", Py.str "d".data)]).length)),
            ("primary_keyword", Py.str "kw".data)]))
    ∧ (∃ r idv,
        ([Py.dict [("id", Py.int 7), ("style", Py.str "default".data),
            ("text", Py.str "hi".data), ("hashtags", Py.list []),
            ("character_count", Py.int 2)]] : List Py).get?
          (([Py.dict [("id", Py.int 7), ("text", Py.str "hi".data)]].take 0).countP
            emittedCaptionB) = some r
        ∧ recGet r "id" = Py.int idv
        ∧ (truthy (dictGet [("id", Py.int 7), ("text", Py.str "hi".data)] "id") = true →
            pyInt (dictGet [("id", Py.int 7), ("text", Py.str "hi".data)] "id") = .ok idv)
        ∧ (truthy (dictGet [("id", Py.int 7), ("text", Py.str "hi".data)] "id") = false →
            idv = Int.ofNat (0 + 1))) := by
  have hm1 : Py.dict [("title", Py.str []), ("body", Py.str "hi".data)]
      ∈ normalize_posts [("posts", Py.list [Py.dict [("body", Py.str "hi".data)]])] := by
    rw [show normalize_posts [("posts", Py.list [Py.dict [("body", Py.str "hi".data)]])]
      = [Py.dict [("title", Py.str []), ("body", Py.str "hi".data)]] from rfl]
    exact List.mem_singleton_self _
  have hm2 : Py.dict [("title", Py.str []), ("tweets", Py.list [Py.str "hi".data])]
      ∈ normalize_threads [("threads",
          Py.list [Py.dict [("tweets", Py.list [Py.str "hi".data])]])] := by
    rw [show normalize_threads [("threads",
        Py.list [Py.dict [("tweets", Py.list [Py.str "hi".data])]])]
      = [Py.dict [("title", Py.str []), ("tweets", Py.list [Py.str "hi".data])]] from rfl]
    exact List.mem_singleton_self _
  have h3 := C3_ordinal_identifiers.2.2.1 [("metas", Py.list
      [Py.str "skipped".data, Py.dict [("description", Py.str "d".data)]])]
      "kw".data
      [Py.str "skipped".data, Py.dict [("description", Py.str "d".data)]] 1
      [("description", Py.str "d".data)] rfl rfl (by decide) (by decide)
  have h4 := C3_ordinal_identifiers.2.2.2 [("captions", Py.list
      [Py.dict [("id", Py.int 7), ("text", Py.str "hi".data)]])]
      [Py.dict [("id", Py.int 7), ("text", Py.str "hi".data)]]
      [Py.dict [("id", Py.int 7), ("style", Py.str "default".data),
        ("text", Py.str "hi".data), ("hashtags", Py.list []),
        ("character_count", Py.int 2)]]
      0 [("id", Py.int 7), ("text", Py.str "hi".data)] "hi".data
      rfl rfl rfl rfl (by decide) (by decide)
  exact ⟨⟨hm1, C3_ordinal_identifiers.1 _ _ hm1⟩, ⟨hm2, C3_ordinal_identifiers.2.1 _ _ hm2⟩, h3, h4⟩

/-! ### Claim C6 -/

/-- C6 (amended): for a well-formed payload the LinkedIn normalizer
returns exactly one record per input item in input order, each with a
non-empty body; the SEO normalizer returns one record per input item in
input order only up to its hard cap of 3 (the first three items), each
with a non-empty description. -/
theorem C6_wellformed_normalization
    (parsedP parsedM : PyDict) (posts metas : List Py) (kw : Str)
    (hp : dictGet parsedP "posts" = Py.list posts)
    (hm : dictGet parsedM "metas" = Py.list metas)
    (hvp : ∀ it ∈ posts, ValidPostItem it)
    (hvm : ∀ it ∈ metas, ValidMetaItem it) :
    normalize_posts parsedP = posts.map postRec
    ∧ (normalize_posts parsedP).length = posts.length
    ∧ (∀ r ∈ normalize_posts parsedP, ∃ s, s ≠ [] ∧ recGet r "body" = Py.str s)
    ∧ normalize_seo_metas parsedM kw
        = ((enumFrom 1 metas).map (seoRec kw)).take 3
    ∧ (normalize_seo_metas parsedM kw).length = min 3 metas.length
    ∧ (∀ r ∈ normalize_seo_metas parsedM kw,
        ∃ s, s ≠ [] ∧ recGet r "description" = Py.str s) := by
  have e1 : normalize_posts parsedP = posts.map postRec := by
    unfold normalize_posts
    rw [hp]
    exact filterMap_eq_map_of_valid_posts posts hvp
  have e2 : normalize_seo_metas parsedM kw
      = ((enumFrom 1 metas).map (seoRec kw)).take 3 := by
    unfold normalize_seo_metas
    rw [hm]
    show (List.filterMap (seoItem kw) (enumFrom 1 metas)).take 3 = _
    rw [enumFrom_filterMap_eq_map_of_valid_metas kw 1 metas hvm]
  refine ⟨e1, by rw [e1]; simp, ?_, e2,
    by rw [e2]; simp [List.length_take, enumFrom_length], ?_⟩
  · intro r hr
    rw [e1] at hr
    obtain ⟨it, hit, heq⟩ := List.mem_map.mp hr
    obtain ⟨d, hd, hb⟩ := hvp it hit
    subst hd
    exact ⟨postBody d, hb, by rw [← heq]; rfl⟩
  · intro r hr
    rw [e2] at hr
    obtain ⟨ie, hie, heq⟩ := List.mem_map.mp (List.mem_of_mem_take hr)
    obtain ⟨d, hd, hb⟩ := hvm ie.2 (enumFrom_snd_mem 1 metas ie hie)
    refine ⟨seoDesc d, hb, ?_⟩
    rw [← heq]
    obtain ⟨i, it⟩ := ie
    simp only at hd
    subst hd
    rfl

/-- Witness for C6 (amended) at concrete one-item payloads. -/
theorem C6_wellformed_normalization_witness :
    dictGet [("posts", Py.list [Py.dict [("body", Py.str "hi".data)]])] "posts"
        = Py.list [Py.dict [("body", Py.str "hi".data)]]
    ∧ dictGet [("metas", Py.list [Py.dict [("description", Py.str "d".data)]])]
        "metas" = Py.list [Py.dict [("description", Py.str "d".data)]]
    ∧ (∀ it ∈ [Py.dict [("body", Py.str "hi".data)]], ValidPostItem it)
    ∧ (∀ it ∈ [Py.dict [("description", Py.str "d".data)]], ValidMetaItem it)
    ∧ (normalize_posts [("posts", Py.list [Py.dict [("body", Py.str "hi".data)]])]
        = [Py.dict [("body", Py.str "hi".data)]].map postRec
      ∧ (normalize_posts [("posts",
          Py.list [Py.dict [("body", Py.str "hi".data)]])]).length
          = [Py.dict [("body", Py.str "hi".data)]].length
      ∧ (∀ r ∈ normalize_posts [("posts",
            Py.list [Py.dict [("body", Py.str "hi".data)]])],
          ∃ s, s ≠ [] ∧ recGet r "body" = Py.str s)
      ∧ normalize_seo_metas [("metas",
            Py.list [Py.dict [("description", Py.str "d".data)]])] "kw".data
          = ((enumFrom 1 [Py.dict [("description", Py.str "d".data)]]).map
              (seoRec "kw".data)).take 3
      ∧ (normalize_seo_metas [("metas",
            Py.list [Py.dict [("description", Py.str "d".data)]])]
            "kw".data).length
          = min 3 [Py.dict [("description", Py.str "d".data)]].length
      ∧ (∀ r ∈ normalize_seo_metas [("metas",
            Py.list [Py.dict [("description", Py.str "d".data)]])] "kw".data,
          ∃ s, s ≠ [] ∧ recGet r "description" = Py.str s)) := by
  have hvp : ∀ it ∈ [Py.dict [("body", Py.str "hi".data)]], ValidPostItem it := by
    intro it hit
    have h1 := List.mem_singleton.mp hit
    subst h1
    exact ⟨_, rfl, by decide⟩
  have hvm : ∀ it ∈ [Py.dict [("description", Py.str "d".data)]],
      ValidMetaItem it := by
    intro it hit
    have h1 := List.mem_singleton.mp hit
    subst h1
    exact ⟨_, rfl, by decide⟩
  exact ⟨rfl, rfl, hvp, hvm,
    C6_wellformed_normalization _ _ _ _ "kw".data rfl rfl hvp hvm⟩

/-! ### Claim C7 -/

/-- An invalid response text keeps the whole two-stage parse failing, so
the shared tail returns `[]` without raising. -/
theorem textToVariants_invalid (stripF : Str → Str) (raw : Py)
    (next : PyDict → Except Unit (List Py))
    (hp : twoStageParse stripF (strip (pyStr raw)) = Option.none) :
    textToVariants stripF raw next = .ok [] := by
  unfold textToVariants
  split
  · rfl
  · rw [hp]

/-- C7: whenever the provider's response text is not valid JSON even
after fence stripping, each of the four generation functions absorbs the
failure and returns `.ok []` — an empty list, no exception. -/
theorem C7_invalid_json_absorbed (raw : Py) (ct : Str)
    (h1 : json_loads (strip (pyStr raw)) = Option.none)
    (h2 : json_loads (gemini_strip_json_fences (strip (pyStr raw))) = Option.none)
    (h3 : json_loads (groq_strip_json_fences (strip (pyStr raw))) = Option.none) :
    generate_linkedin_posts_from_text
        (fun _ => .ok ⟨Option.none, raw⟩) ct = .ok []
    ∧ generate_instagram_captions_from_text
        (fun _ => .ok ⟨Option.none, raw⟩) ct "aud".data "tone".data
        Option.none Option.none = .ok []
    ∧ generate_twitter_threads_from_text (fun _ => .ok [raw]) ct = .ok []
    ∧ generate_seo_meta_from_text (fun _ => .ok [raw]) ct Option.none
        "kw".data "informational".data Option.none = .ok [] := by
  have hg : twoStageParse gemini_strip_json_fences (strip (pyStr raw))
      = Option.none := by
    unfold twoStageParse
    rw [h1, h2]
  have hq : twoStageParse groq_strip_json_fences (strip (pyStr raw))
      = Option.none := by
    unfold twoStageParse
    rw [h1, h3]
  refine ⟨?_, ?_, ?_, ?_⟩
  · unfold generate_linkedin_posts_from_text
    split
    · rfl
    · exact textToVariants_invalid _ _ _ hg
  · unfold generate_instagram_captions_from_text
    split
    · rfl
    · exact textToVariants_invalid _ _ _ hg
  · unfold generate_twitter_threads_from_text
    split
    · rfl
    · exact textToVariants_invalid _ _ _ hq
  · unfold generate_seo_meta_from_text
    split
    · rfl
    · exact textToVariants_invalid _ _ _ hq

/-- Witness for C7 at a concrete non-JSON response text. -/
theorem C7_invalid_json_absorbed_witness :
    json_loads (strip (pyStr (Py.str "not valid json".data))) = Option.none
    ∧ json_loads (gemini_strip_json_fences
        (strip (pyStr (Py.str "not valid json".data)))) = Option.none
    ∧ json_loads (groq_strip_json_fences
        (strip (pyStr (Py.str "not valid json".data)))) = Option.none
    ∧ (generate_linkedin_posts_from_text
          (fun _ => .ok ⟨Option.none, Py.str "not valid json".data⟩)
          "some adequately long content".data = .ok []
      ∧ generate_instagram_captions_from_text
          (fun _ => .ok ⟨Option.none, Py.str "not valid json".data⟩)
          "some adequately long content".data "aud".data "tone".data
          Option.none Option.none = .ok []
      ∧ generate_twitter_threads_from_text
          (fun _ => .ok [Py.str "not valid json".data])
          "some adequately long content".data = .ok []
      ∧ generate_seo_meta_from_text
          (fun _ => .ok [Py.str "not valid json".data])
          "some adequately long content".data Option.none
          "kw".data "informational".data Option.none = .ok []) :=
  ⟨rfl, rfl, rfl,
    C7_invalid_json_absorbed (Py.str "not valid json".data)
      "some adequately long content".data rfl rfl rfl⟩

/-! ### Claim C8 -/

/-- C8: on a metas payload of 5 well-formed items the SEO normalizer
returns exactly the first 3 in input order, each stamped with the
caller-supplied `primary_keyword`. -/
theorem C8_seo_five_items (parsed : PyDict) (metas : List Py) (kw : Str)
    (h : dictGet parsed "metas" = Py.list metas) (h5 : metas.length = 5)
    (hv : ∀ it ∈ metas, ValidMetaItem it) :
    normalize_seo_metas parsed kw
        = (enumFrom 1 (metas.take 3)).map (seoRec kw)
    ∧ (normalize_seo_metas parsed kw).length = 3
    ∧ ∀ r ∈ normalize_seo_metas parsed kw,
        recGet r "primary_keyword" = Py.str kw := by
  have e : normalize_seo_metas parsed kw
      = ((enumFrom 1 metas).map (seoRec kw)).take 3 := by
    unfold normalize_seo_metas
    rw [h]
    show (List.filterMap (seoItem kw) (enumFrom 1 metas)).take 3 = _
    rw [enumFrom_filterMap_eq_map_of_valid_metas kw 1 metas hv]
  have e2 : normalize_seo_metas parsed kw
      = (enumFrom 1 (metas.take 3)).map (seoRec kw) := by
    rw [e, ← List.map_take, enumFrom_take]
  refine ⟨e2, ?_, ?_⟩
  · rw [e]
    simp [List.length_take, enumFrom_length, h5]
  · intro r hr
    rw [e] at hr
    obtain ⟨ie, hie, heq⟩ := List.mem_map.mp (List.mem_of_mem_take hr)
    obtain ⟨d, hd, _⟩ := hv ie.2 (enumFrom_snd_mem 1 metas ie hie)
    rw [← heq]
    obtain ⟨i, it⟩ := ie
    simp only at hd
    subst hd
    rfl

/-- Witness for C8 at `metas5`. -/
theorem C8_seo_five_items_witness :
    dictGet [("metas", Py.list metas5)] "metas" = Py.list metas5
    ∧ metas5.length = 5
    ∧ (∀ it ∈ metas5, ValidMetaItem it)
    ∧ (normalize_seo_metas [("metas", Py.list metas5)] "kw".data
        = (enumFrom 1 (metas5.take 3)).map (seoRec "kw".data)
      ∧ (normalize_seo_metas [("metas", Py.list metas5)] "kw".data).length = 3
      ∧ ∀ r ∈ normalize_seo_metas [("metas", Py.list metas5)] "kw".data,
          recGet r "primary_keyword" = Py.str "kw".data) := by
  have hv : ∀ it ∈ metas5, ValidMetaItem it := by
    intro it hit
    simp only [metas5, List.mem_cons, List.not_mem_nil, or_false] at hit
    rcases hit with h | h | h | h | h
    all_goals subst h
    · exact ⟨_, rfl, by decide⟩
    · exact ⟨_, rfl, by decide⟩
    · exact ⟨_, rfl, by decide⟩
    · exact ⟨_, rfl, by decide⟩
    · exact ⟨_, rfl, by decide⟩
  exact ⟨rfl, rfl, hv, C8_seo_five_items _ metas5 "kw".data rfl rfl hv⟩

/-! ### Claim C9 -/

/-- C9: a tweet string whose trimmed length is 300 appears in the
emitted thread record truncated to its first 277 characters plus
`"..."`, a tweet of length exactly 280. -/
theorem C9_tweet_truncation (s : Str) (ts : List Py) (tv : Py)
    (hmem : Py.str s ∈ ts) (h300 : (strip s).length = 300) :
    ∃ cleaned : List Str,
      normalize_threads [("threads", Py.list [Py.dict
          [("title", tv), ("tweets", Py.list ts)]])]
        = [Py.dict [("title", Py.str (strip (pyStr (pyOr tv (Py.str []))))),
                    ("tweets", Py.list (cleaned.map Py.str))]]
      ∧ (strip s).take 277 ++ "...".data ∈ cleaned
      ∧ ((strip s).take 277 ++ "...".data).length = 280 := by
  have hsne : s ≠ [] := by
    intro h0
    rw [h0] at h300
    simp [strip_nil] at h300
  have hclean : cleanTweet (Py.str s)
      = some ((strip s).take 277 ++ "...".data) := by
    unfold cleanTweet
    have ht : truthy (Py.str s) = true := by
      simp [truthy, List.isEmpty_iff, hsne]
    rw [show pyOr (Py.str s) (Py.str []) = Py.str s from by simp [pyOr, ht]]
    rw [if_neg (by
      simp [pyStr, List.isEmpty_iff]
      intro h0
      rw [h0] at h300
      simp at h300)]
    rw [if_pos (by rw [show pyStr (Py.str s) = s from rfl, h300]; norm_num)]
    rfl
  have humem : (strip s).take 277 ++ "...".data ∈ ts.filterMap cleanTweet :=
    List.mem_filterMap.mpr ⟨Py.str s, hmem, hclean⟩
  have htne : ts ≠ [] := List.ne_nil_of_mem hmem
  refine ⟨ts.filterMap cleanTweet, ?_, humem, ?_⟩
  · unfold normalize_threads
    show List.filterMap threadItem [Py.dict [("title", tv), ("tweets", Py.list ts)]] = _
    rw [List.filterMap_cons]
    have hdg1 : dictGet [("title", tv), ("tweets", Py.list ts)] "tweets"
        = Py.list ts := rfl
    have hdg2 : dictGet [("title", tv), ("tweets", Py.list ts)] "title" = tv := rfl
    have h1 : pyOr (Py.list ts) (Py.list []) = Py.list ts := by
      simp [pyOr, truthy, List.isEmpty_iff, htne]
    have hc : (ts.filterMap cleanTweet).isEmpty = false := by
      have hne := List.ne_nil_of_mem humem
      cases hfm : ts.filterMap cleanTweet with
      | nil => exact absurd hfm hne
      | cons a l => rfl
    have hti : threadItem (Py.dict [("title", tv), ("tweets", Py.list ts)])
        = some (Py.dict [("title", Py.str (strip (pyStr (pyOr tv (Py.str []))))),
            ("tweets", Py.list ((ts.filterMap cleanTweet).map Py.str))]) := by
      simp [threadItem, hdg1, hdg2, h1, hc]
    rw [hti]
    rfl
  · rw [List.length_append, List.length_take, h300,
      show ("...".data : Str).length = 3 from rfl]
    norm_num

theorem isSpace_x : isSpace 'x' = false := by decide

/-- Witness for C9 at a concrete 300-character tweet. -/
theorem C9_tweet_truncation_witness :
    Py.str (List.replicate 300 'x') ∈ [Py.str (List.replicate 300 'x')]
    ∧ (strip (List.replicate 300 'x')).length = 300
    ∧ ∃ cleaned : List Str,
      normalize_threads [("threads", Py.list [Py.dict
          [("title", Py.none),
           ("tweets", Py.list [Py.str (List.replicate 300 'x')])]])]
        = [Py.dict [("title",
              Py.str (strip (pyStr (pyOr Py.none (Py.str []))))),
            ("tweets", Py.list (cleaned.map Py.str))]]
      ∧ (strip (List.replicate 300 'x')).take 277 ++ "...".data ∈ cleaned
      ∧ ((strip (List.replicate 300 'x')).take 277 ++ "...".data).length
          = 280 := by
  have hlen : (strip (List.replicate 300 'x')).length = 300 := by
    rw [strip, lstrip, dropWhile_replicate_not _ _ isSpace_x,
      rstrip_replicate_not _ isSpace_x, List.length_replicate]
  exact ⟨List.mem_singleton_self _, hlen,
    C9_tweet_truncation (List.replicate 300 'x')
      [Py.str (List.replicate 300 'x')] Py.none
      (List.mem_singleton_self _) hlen⟩

/-! ### Claim C2 (amended) -/

/-- C2 (amended): the entry points return an empty list without
invoking the provider adapter exactly for blank (empty-after-trim)
source text — the result is then `.ok []` for every adapter. For any
text with non-empty trim (in particular one of trimmed length 19, as in
the counterexample) the adapter *is* invoked: an always-raising adapter
makes every entry point propagate the error. The ≥20-character minimum
is enforced by the HTTP routers as a 400 rejection before these
functions are called, not inside them. -/
theorem C2_blank_short_circuit (ct1 ct2 : Str)
    (hb : strip ct1 = []) (hn : strip ct2 ≠ []) :
    (∀ (gad : Str → Except Unit GeminiResponse)
       (qad : Str → Except Unit (List Py))
       (aud tone : Str) (goal title tone2 : Option Str) (kw si : Str),
        generate_linkedin_posts_from_text gad ct1 = .ok []
        ∧ generate_instagram_captions_from_text gad ct1 aud tone goal title
            = .ok []
        ∧ generate_twitter_threads_from_text qad ct1 = .ok []
        ∧ generate_seo_meta_from_text qad ct1 title kw si tone2 = .ok [])
    ∧ (∀ (aud tone : Str) (goal title tone2 : Option Str) (kw si : Str),
        generate_linkedin_posts_from_text (fun _ => .error ()) ct2 = .error ()
        ∧ generate_instagram_captions_from_text (fun _ => .error ()) ct2
            aud tone goal title = .error ()
        ∧ generate_twitter_threads_from_text (fun _ => .error ()) ct2
            = .error ()
        ∧ generate_seo_meta_from_text (fun _ => .error ()) ct2 title kw si
            tone2 = .error ()) := by
  have he1 : (strip ct1).isEmpty = true := by rw [hb]; rfl
  have hg1 : ∀ b : Bool, (b || (strip ct1).isEmpty) = true := by
    intro b
    rw [he1, Bool.or_true]
  have hne2 : ct2 ≠ [] := by
    intro h0
    rw [h0] at hn
    exact hn strip_nil
  have hg2 : (ct2.isEmpty || (strip ct2).isEmpty) = false := by
    have h1 : ct2.isEmpty = false := by
      cases hc : ct2 with
      | nil => exact absurd hc hne2
      | cons a l => rfl
    have h2 : (strip ct2).isEmpty = false := by
      cases hc : strip ct2 with
      | nil => exact absurd hc hn
      | cons a l => rfl
    rw [h1, h2]
    rfl
  constructor
  · intro gad qad aud tone goal title tone2 kw si
    refine ⟨?_, ?_, ?_, ?_⟩
    · unfold generate_linkedin_posts_from_text
      rw [if_pos (hg1 _)]
    · unfold generate_instagram_captions_from_text
      rw [if_pos (hg1 _)]
    · unfold generate_twitter_threads_from_text
      rw [if_pos (hg1 _)]
    · unfold generate_seo_meta_from_text
      rw [if_pos (hg1 _)]
  · intro aud tone goal title tone2 kw si
    refine ⟨?_, ?_, ?_, ?_⟩
    · unfold generate_linkedin_posts_from_text
      rw [if_neg (by rw [hg2]; exact Bool.false_ne_true)]
    · unfold generate_instagram_captions_from_text
      rw [if_neg (by rw [hg2]; exact Bool.false_ne_true)]
    · unfold generate_twitter_threads_from_text
      rw [if_neg (by rw [hg2]; exact Bool.false_ne_true)]
    · unfold generate_seo_meta_from_text
      rw [if_neg (by rw [hg2]; exact Bool.false_ne_true)]

/-- Witness for C2 (amended): blank text `"  "` and the 19-character
text `t19`. -/
theorem C2_blank_short_circuit_witness :
    strip "  ".data = [] ∧ strip t19 ≠ []
    ∧ generate_twitter_threads_from_text
        (fun _ => .ok [Py.str "irrelevant".data]) "  ".data = .ok []
    ∧ generate_twitter_threads_from_text (fun _ => .error ()) t19
        = .error () := by
  have hb : strip "  ".data = [] := rfl
  have hn : strip t19 ≠ [] := by decide
  have h := C2_blank_short_circuit "  ".data t19 hb hn
  exact ⟨hb, hn,
    ((h.1 (fun _ => .ok ⟨Option.none, Py.none⟩)
      (fun _ => .ok [Py.str "irrelevant".data]) "a".data "t".data
      Option.none Option.none Option.none "k".data "s".data).2.2.1),
    ((h.2 "a".data "t".data Option.none Option.none Option.none
      "k".data "s".data).2.2.1)⟩
